import Mathlib

/-!
Verification of the xorm struct-result materialization and query-result
caching layer (`session_find.go`, `session_insert.go`, `engine.go`,
`internal/statements/cache.go`), via a shallow embedding in Lean 4.

Go reflection-driven code is embedded as follows: runtime types become the
inductive `GoType`; beans become records carrying their concrete type and
primary key; Go maps become association lists with prepend-insert (so a
first-match lookup realizes Go's overwrite semantics); fallible paths
return `Except Err`; the database driver is an explicit deterministic
collaborator record (`DB`); executed-query counts are returned explicitly
so that statements about "no I/O attempted" can be made.
-/

set_option maxRecDepth 8000

namespace Xorm

/-- Error values of the embedded code. `cacheFailed` embeds the
`ErrCacheFailed` sentinel; the others embed the `errors.New` shape errors of
`session_find.go`. -/
inductive Err where
  | cacheFailed
  | needsSliceOrMap
  | ptrToPtr
  | mapNonSliceKey
  | other (msg : String)
deriving DecidableEq, Repr

/-- Embedding of Go runtime (reflect) types, as far as the cache layer
inspects them: a named struct type or a pointer type. -/
inductive GoType where
  | named (s : String)
  | ptr (t : GoType)
deriving DecidableEq, Repr

/-- A primary key value: the ordered sequence of stringified key column
values (`schemas.PK` after `ConvertID`/`ToString`). -/
abbrev PK := List String

/-- Embedding of `schemas.PK.ToString`: the canonical cache-key string of a
primary key. -/
def pkToString (pk : PK) : String :=
  String.intercalate "," pk

/-- A materialized row object as the cache layer sees it: its concrete
struct type (`reflect.ValueOf(bean).Elem().Type()`), its own primary key
(`table.IDOfV`), and its remaining field data. -/
structure Bean where
  ty : GoType
  pk : PK
  data : String
deriving DecidableEq, Repr

/-- One mapped column of a table descriptor (`schemas.Column`), reduced to
the name, which is all the resolver consults. -/
structure Column where
  name : String
deriving DecidableEq, Repr

/-- A table descriptor (`schemas.Table`): ordered columns and the names of
the primary key columns. -/
structure Table where
  columns : List Column
  primaryKeys : List String
deriving DecidableEq, Repr

/-- Embedding of `schemas.Table.PKColumns`: the columns named by
`primaryKeys`, in key order. -/
def Table.pkColumns (t : Table) : List Column :=
  t.primaryKeys.filterMap (fun n => t.columns.find? (fun c => c.name == n))

/-- Modelled from the spec: `schemas.Table.GetColumnIdx` is not under src/.
Per the spec (4.1), matching is case-insensitive and the `idx`-th occurrence
of a result-column name binds to the `idx`-th same-named column in struct
order, with no match past the cardinality of same-named columns. -/
def Table.GetColumnIdx (table : Table) (name : String) (idx : Nat) : Option Column :=
  (table.columns.filter (fun c => c.name.toLower == name.toLower))[idx]?

/-- Driver-reported column type metadata (`sql.ColumnType`), reduced to its
database type name; the resolver only carries it through. -/
structure ColumnType where
  typeName : String
deriving DecidableEq, Repr

/-- Embedding of `QueryedField` from `session_find.go`. -/
structure QueryedField where
  FieldName : String
  LowerFieldName : String
  ColumnType : ColumnType
  TempIndex : Nat
  ColumnSchema : Option Column
deriving DecidableEq, Repr

/-- Embedding of `ColumnsSchema` from `session_find.go`. `FieldNames` and
`Types` are left empty by `ParseColumnsSchema` exactly as in the source. -/
structure ColumnsSchema where
  Fields : List QueryedField
  FieldNames : List String
  Types : List ColumnType
deriving DecidableEq, Repr

/-- The first loop of `ParseColumnsSchema`: build one `QueryedField` per
result column, pairing `fieldNames[i]` with `types[i]` positionally. -/
def mkQueryedFields : List String → List ColumnType → List QueryedField
  | [], _ => []
  | n :: ns, ts =>
    QueryedField.mk n n.toLower (ts.headD (ColumnType.mk "")) 0 none ::
      mkQueryedFields ns ts.tail

/-- The `TempIndex` the `tempMap` state assigns to the next occurrence of a
lower-cased name (`if idx, ok = tempMap[...]; !ok` in the source): 0 when the
name is unseen, previous+1 otherwise. -/
def occNext (m : List (String × Nat)) (s : String) : Nat :=
  match m.lookup s with
  | none => 0
  | some i => i + 1

/-- The second loop of `ParseColumnsSchema`: walk the fields in result-column
order keeping `tempMap : map[string]int`; a field's `TempIndex` is 0 on the
first occurrence of its lower-cased name and previous+1 afterwards
(`occNext`). The Go map is an association list whose insert prepends, so
that the first-match `List.lookup` sees the latest write. -/
def assignTempIndex : List (String × Nat) → List QueryedField → List QueryedField
  | _, [] => []
  | tempMap, f :: rest =>
    QueryedField.mk f.FieldName f.LowerFieldName f.ColumnType
        (occNext tempMap f.LowerFieldName) f.ColumnSchema ::
      assignTempIndex ((f.LowerFieldName, occNext tempMap f.LowerFieldName) :: tempMap) rest

/-- Embedding of `ColumnsSchema.ParseTableSchema`: bind every queried field
to the struct column located by `(FieldName, TempIndex)`. -/
def ColumnsSchema.ParseTableSchema (cs : ColumnsSchema) (table : Table) : ColumnsSchema :=
  ColumnsSchema.mk
    (cs.Fields.map (fun f =>
      QueryedField.mk f.FieldName f.LowerFieldName f.ColumnType f.TempIndex
        (table.GetColumnIdx f.FieldName f.TempIndex)))
    cs.FieldNames cs.Types

/-- Embedding of `ParseColumnsSchema` from `session_find.go`; `table` is an
`Option` because the Go pointer may be nil. -/
def ParseColumnsSchema (fieldNames : List String) (types : List ColumnType)
    (table : Option Table) : ColumnsSchema :=
  let cs := ColumnsSchema.mk (assignTempIndex [] (mkQueryedFields fieldNames types)) [] []
  match table with
  | some t => cs.ParseTableSchema t
  | none => cs

/-- Modelled from the spec: `internal/utils.IndexNoCase` is not under src/;
it is the case-insensitive substring search used for the "having" /
"group by" keyword test ("the raw SQL contains grouping/aggregation
keywords", matched case-insensitively). Returns the first index of the
lower-cased needle in the lower-cased haystack. -/
def findSub : List Char → List Char → Option Nat
  | [], needle => if needle.isEmpty then some 0 else none
  | c :: rest, needle =>
    if needle.isPrefixOf (c :: rest) then some 0
    else
      match findSub rest needle with
      | some i => some (i + 1)
      | none => none

/-- Case-insensitive index of `sub` in `s` (see `findSub`); lower-casing is
done per character over the character list. -/
def IndexNoCase (s sub : String) : Option Nat :=
  findSub (s.toList.map Char.toLower) (sub.toList.map Char.toLower)

/-- Modelled from the spec: `internal/utils.SplitNNoCase` with n = 2 is not
under src/; it splits at the first case-insensitive occurrence of `sep`,
yielding the one-element list when `sep` does not occur. -/
def SplitNNoCase (s sep : String) : List String :=
  match IndexNoCase s sep with
  | none => [s]
  | some i => [String.mk (s.toList.take i), String.mk (s.toList.drop (i + sep.toList.length))]

/-- The query-result cache store: id lists keyed by the
(table, rewritten SQL, arguments) fingerprint, and beans keyed by
(table, canonical primary-key string). Modelled from the spec: the
`caches` package is not under src/; the spec (6.) specifies it as a
capability with get/put/clear operations over exactly these keys. -/
structure CacheState where
  idLists : List ((String × String × List String) × List PK)
  beans : List ((String × String) × Bean)
deriving DecidableEq, Repr

/-- Modelled from the spec: `caches.GetCacheSql` — look up the cached id
list for the (table, rewritten SQL, args) fingerprint. -/
def GetCacheSql (st : CacheState) (tableName newsql : String) (args : List String) :
    Option (List PK) :=
  st.idLists.lookup (tableName, newsql, args)

/-- Modelled from the spec: `caches.PutCacheSql` — store an id list under
the fingerprint; prepend-insert so the latest write shadows older ones. -/
def PutCacheSql (st : CacheState) (ids : List PK) (tableName newsql : String)
    (args : List String) : CacheState :=
  CacheState.mk (((tableName, newsql, args), ids) :: st.idLists) st.beans

/-- Modelled from the spec: `cacher.GetBean`. -/
def GetBean (st : CacheState) (tableName sid : String) : Option Bean :=
  st.beans.lookup (tableName, sid)

/-- Modelled from the spec: `cacher.PutBean`; prepend-insert overwrite. -/
def PutBean (st : CacheState) (tableName sid : String) (b : Bean) : CacheState :=
  CacheState.mk st.idLists (((tableName, sid), b) :: st.beans)

/-- Modelled from the spec: `cacher.ClearIds` — drop every id-list entry of
the given table, leaving other tables' entries and all beans intact. -/
def ClearIds (st : CacheState) (tableName : String) : CacheState :=
  CacheState.mk (st.idLists.filter (fun e => !(e.1.1 == tableName))) st.beans

/-- Embedding of `statement.joinColumns` for primary-key columns: quoted
column names joined by ", ". -/
def joinColumns (cols : List Column) : String :=
  String.intercalate ", " (cols.map (fun c => "`" ++ c.name ++ "`"))

/-- Embedding of `Statement.ConvertIDSQL` (internal/statements/cache.go):
rewrite the SELECT list of `sqlStr` to the primary-key columns, keeping
everything from the first case-insensitive " from " on; empty result means
the statement is not rewritable (no ref table, no pk columns, or no
" from " in the SQL). -/
def ConvertIDSQL (refTable : Option Table) (isMSSQL : Bool) (limitN : Option Nat)
    (sqlStr : String) : String :=
  match refTable with
  | none => ""
  | some tbl =>
    let cols := tbl.pkColumns
    if cols.length = 0 then ""
    else
      match SplitNNoCase sqlStr " from " with
      | [_, rest] =>
        let top : String :=
          match limitN, isMSSQL with
          | some n, true => "TOP " ++ toString n ++ " "
          | _, _ => ""
        "SELECT " ++ top ++ joinColumns cols ++ " FROM " ++ rest
      | _ => ""

/-- The id-collection loop of `cacheFind` (session_find.go:366-391): the
counter `i` is incremented for each row; once it passes 500 the loop
returns `ErrCacheFailed` without reading further rows. Row scanning and
`ConvertID` are driver concerns abstracted away: each row is already the
primary key it denotes. -/
def collectIdsAux : Nat → List PK → Except Err (List PK)
  | _, [] => Except.ok []
  | i, r :: rest =>
    if 500 < i + 1 then Except.error Err.cacheFailed
    else
      match collectIdsAux (i + 1) rest with
      | Except.error e => Except.error e
      | Except.ok ids => Except.ok (r :: ids)

/-- `collectIdsAux` started at 0, as in the source. -/
def collectIds (rows : List PK) : Except Err (List PK) :=
  collectIdsAux 0 rows

/-- The body of the `isHit` closure of `cacheFind` (session_find.go:416-427)
for a non-nil cached bean: the cached bean's concrete (pointed-to) type must
equal the expected element type, or — when the element type is a pointer —
its pointee. -/
def typeMatches (b : Bean) (t : GoType) : Bool :=
  b.ty == t ||
    (match t with
     | GoType.ptr e => e == b.ty
     | _ => false)

/-- The `isHit` closure of `cacheFind`: a nil cached bean is never a hit. -/
def isHit (bean : Option Bean) (t : GoType) : Bool :=
  match bean with
  | none => false
  | some b => typeMatches b t

/-- The per-id loop of `cacheFind` (session_find.go:404-450). For each id,
in order: stringify it, probe the bean cache; on a type-correct hit check
the bean's own primary key string against the cache key (mismatch is
`ErrCacheFailed`); otherwise record the id as missed (`ides`) and remember
its position (`ididxes`). Returns `temps` (one slot per id, hits filled),
the missed ids in order, and the position map. `ididxes` entries for later
ids precede earlier ones so that first-match lookup realizes the Go map's
overwrite semantics; the `idx` argument carries the absolute position. -/
def resolveCached (t : GoType) (getBean : String → Option Bean) :
    List PK → Nat → Except Err (List (Option Bean) × List PK × List (String × Nat))
  | [], _ => Except.ok ([], [], [])
  | id :: rest, idx =>
    let sid := pkToString id
    match getBean sid with
    | some b =>
      if typeMatches b t then
        if pkToString b.pk ≠ sid then Except.error Err.cacheFailed
        else
          match resolveCached t getBean rest (idx + 1) with
          | Except.error e => Except.error e
          | Except.ok (temps, ides, ididxes) =>
            Except.ok (some b :: temps, ides, ididxes)
      else
        match resolveCached t getBean rest (idx + 1) with
        | Except.error e => Except.error e
        | Except.ok (temps, ides, ididxes) =>
          Except.ok (none :: temps, id :: ides, ididxes ++ [(sid, idx)])
    | none =>
      match resolveCached t getBean rest (idx + 1) with
      | Except.error e => Except.error e
      | Except.ok (temps, ides, ididxes) =>
        Except.ok (none :: temps, id :: ides, ididxes ++ [(sid, idx)])

/-- The backfill loop of `cacheFind` (session_find.go:486-504): place each
bean returned by the batch query into `temps` at the position recorded for
its primary-key string (a Go map miss reads index 0), and put it into the
bean cache under that string. -/
def applyBackfill (tableName : String) (ididxes : List (String × Nat)) :
    List Bean → List (Option Bean) → CacheState → List (Option Bean) × CacheState
  | [], temps, st => (temps, st)
  | b :: rest, temps, st =>
    let sid := pkToString b.pk
    applyBackfill tableName ididxes rest
      (temps.set ((ididxes.lookup sid).getD 0) (some b))
      (PutBean st tableName sid b)

/-- The result-composition loop of `cacheFind` (session_find.go:507-543) for
a slice destination: walk `temps` in original id order, skipping ids that
resolved to no bean (logged warning in the source, never an error). -/
def composeSlice (temps : List (Option Bean)) : List Bean :=
  temps.filterMap (fun x => x)

/-- The database driver as a deterministic collaborator: the rows the
rewritten id query returns, the rows a batch backfill query returns for a
missed-id list, and the rows the original query returns (used by the direct
path). -/
structure DB where
  idQuery : String → List String → List PK
  backfill : List PK → List Bean
  mainRows : List Bean

/-- The statement/session facts `find` and `cacheFind` consult. -/
structure FindCtx where
  canCache : Bool
  columnMapEmpty : Bool
  isDistinct : Bool
  unscoped : Bool
  cacher : Bool
  tableName : String
  refTable : Option Table
  isMSSQL : Bool
  limitN : Option Nat

/-- The tail of `cacheFind` after the id list is known: resolve each id
against the bean cache, backfill the misses in one batch (when any), and
compose the slice output; `q` is the number of id-resolution queries already
executed. -/
def processIds (t : GoType) (tableName : String) (db : DB) (ids : List PK)
    (st : CacheState) (q : Nat) : Except Err (List Bean) × CacheState × Nat :=
  match resolveCached t (GetBean st tableName) ids 0 with
  | Except.error e => (Except.error e, st, q)
  | Except.ok (temps, ides, ididxes) =>
    if ides.isEmpty then (Except.ok (composeSlice temps), st, q)
    else
      let (tempsF, stF) := applyBackfill tableName ididxes (db.backfill ides) temps st
      (Except.ok (composeSlice tempsF), stF, q)

/-- Embedding of `Session.cacheFind` (session_find.go:335-546) for a slice
destination. Returns the result, the cache state after the call, and the
number of id-resolution queries executed. The source's dialect filters are
identity here, and scan/driver errors do not arise because the driver is
total. -/
def cacheFind (ctx : FindCtx) (db : DB) (t : GoType) (sqlStr : String)
    (args : List String) (st : CacheState) : Except Err (List Bean) × CacheState × Nat :=
  if !ctx.canCache || (IndexNoCase sqlStr "having").isSome
      || (IndexNoCase sqlStr "group by").isSome then
    (Except.error Err.cacheFailed, st, 0)
  else if !ctx.cacher then
    -- the source returns nil here without touching the destination;
    -- unreachable from `find`, which requires a configured cacher.
    (Except.ok [], st, 0)
  else
    let newsql := ConvertIDSQL ctx.refTable ctx.isMSSQL ctx.limitN sqlStr
    if newsql = "" then (Except.error Err.cacheFailed, st, 0)
    else
      match GetCacheSql st ctx.tableName newsql args with
      | some ids => processIds t ctx.tableName db ids st 0
      | none =>
        match collectIds (db.idQuery newsql args) with
        | Except.error e => (Except.error e, st, 1)
        | Except.ok ids =>
          processIds t ctx.tableName db ids (PutCacheSql st ids ctx.tableName newsql args) 1

/-- `true` exactly when the container element type is a pointer to a
pointer, after the one pointer unwrap `noCacheFind` performs. -/
def elemIsPtrPtr : GoType → Bool
  | GoType.ptr (GoType.ptr _) => true
  | _ => false

/-- The shape of the caller-supplied destination container. `other` stands
for any destination that is not a pointer to a slice or map. -/
inductive DestKind where
  | slice
  | map (keyIsSlice : Bool)
  | other
deriving DecidableEq, Repr

/-- Embedding of `Session.noCacheFind` (session_find.go:224-333). Returns
the result and the number of queries executed: the pointer-to-pointer shape
check precedes `queryRows`, while the map-destination primary-key checks
follow it. Row materialization is abstracted: the cursor yields beans, and
the slice output preserves cursor order; map composition keys are omitted
(order-irrelevant), only its error behavior is kept. -/
def noCacheFind (table : Option Table) (destKind : DestKind) (elemType : GoType)
    (rows : List Bean) : Except Err (List Bean) × Nat :=
  if elemIsPtrPtr elemType then (Except.error Err.ptrToPtr, 0)
  else
    -- queryRows executes here: one query on every path below.
    match destKind with
    | DestKind.slice => (Except.ok rows, 1)
    | DestKind.map keyIsSlice =>
      match table with
      | some tbl =>
        if tbl.primaryKeys.length = 0 then (Except.error Err.mapNonSliceKey, 1)
        else if 1 < tbl.primaryKeys.length && !keyIsSlice then
          (Except.error Err.mapNonSliceKey, 1)
        else (Except.ok rows, 1)
      | none => (Except.ok rows, 1)
    | DestKind.other => (Except.ok rows, 1)

/-- Embedding of `Session.find` (session_find.go:81-164): the
pointer-to-slice/map shape check comes first with no I/O; then, when the
column map is empty, the session can cache, a cacher is configured and the
statement is neither distinct nor unscoped, `cacheFind` runs and only an
`ErrCacheFailed` result falls through to `noCacheFind`; otherwise
`noCacheFind` runs directly. Returns result, cache state, id-resolution
query count, and direct/backfill query count of the `noCacheFind` leg. -/
def find (ctx : FindCtx) (db : DB) (destKind : DestKind) (elemType : GoType)
    (sqlStr : String) (args : List String) (st : CacheState) :
    Except Err (List Bean) × CacheState × Nat × Nat :=
  if destKind = DestKind.other then (Except.error Err.needsSliceOrMap, st, 0, 0)
  else if ctx.columnMapEmpty && ctx.canCache && ctx.cacher
      && !ctx.isDistinct && !ctx.unscoped then
    match cacheFind ctx db elemType sqlStr args st with
    | (Except.error Err.cacheFailed, st1, q) =>
      let (r, mq) := noCacheFind ctx.refTable destKind elemType db.mainRows
      (r, st1, q, mq)
    | (r, st1, q) => (r, st1, q, 0)
  else
    let (r, mq) := noCacheFind ctx.refTable destKind elemType db.mainRows
    (r, st, 0, mq)

/-- Observable events of an insert path: the SQL `exec` of the write, and a
clear of a table's id-list cache namespace. -/
inductive InsertEvent where
  | exec
  | clearIds (table : String)
deriving DecidableEq, Repr

/-- Embedding of `Session.cacheInsert` (session_insert.go:436-447): when the
statement uses caching and a cacher is configured for the table, clear that
table's id-list namespace; otherwise do nothing. Returns the new cache
state and the emitted events. -/
def cacheInsert (useCache : Bool) (cacherFor : String → Bool) (tableName : String)
    (st : CacheState) : CacheState × List InsertEvent :=
  if !useCache then (st, [])
  else if !cacherFor tableName then (st, [])
  else (ClearIds st tableName, [InsertEvent.clearIds tableName])

/-- The struct-insert path (session_insert.go: `insertStruct`, both commit
branches, lines 357 and 387): `exec` the write, then `cacheInsert`. -/
def insertStructEffects (useCache : Bool) (cacherFor : String → Bool)
    (tableName : String) (st : CacheState) : CacheState × List InsertEvent :=
  let (st1, evs) := cacheInsert useCache cacherFor tableName st
  (st1, InsertEvent.exec :: evs)

/-- The multi-struct insert path (session_insert.go:195-200): `exec`, then
`cacheInsert`. -/
def insertMultipleEffects (useCache : Bool) (cacherFor : String → Bool)
    (tableName : String) (st : CacheState) : CacheState × List InsertEvent :=
  let (st1, evs) := cacheInsert useCache cacherFor tableName st
  (st1, InsertEvent.exec :: evs)

/-- The map-insert path (session_insert.go:647-672, `insertMap`; likewise
`insertMultipleMap`): `cacheInsert` runs BEFORE the `exec` of the write. -/
def insertMapEffects (useCache : Bool) (cacherFor : String → Bool)
    (tableName : String) (st : CacheState) : CacheState × List InsertEvent :=
  let (st1, evs) := cacheInsert useCache cacherFor tableName st
  (st1, evs ++ [InsertEvent.exec])

/-- "The id-list clear happens after the write": no `clearIds` event occurs
before the first `exec` in the trace. -/
def clearAfterExec (evs : List InsertEvent) : Bool :=
  (evs.takeWhile (fun e => !(e == InsertEvent.exec))).all
    (fun e =>
      match e with
      | InsertEvent.clearIds _ => false
      | InsertEvent.exec => true)

/-! ## Resolver lemmas (Column Schema Resolver) -/

theorem occNext_cons (s0 : String) (k : Nat) (m : List (String × Nat)) (s : String) :
    occNext ((s0, k) :: m) s = if s == s0 then k + 1 else occNext m s := by
  simp only [occNext, List.lookup]
  cases h : s == s0 <;> simp [h]

theorem assignTempIndex_getElem? (fs : List QueryedField) (m : List (String × Nat)) (i : Nat) :
    (assignTempIndex m fs)[i]? = (fs[i]?).map (fun f =>
      QueryedField.mk f.FieldName f.LowerFieldName f.ColumnType
        (occNext m f.LowerFieldName +
          (fs.take i).countP (fun g => g.LowerFieldName == f.LowerFieldName))
        f.ColumnSchema) := by
  induction fs generalizing m i with
  | nil => simp [assignTempIndex]
  | cons f rest ih =>
    cases i with
    | zero =>
      simp [assignTempIndex, occNext]
    | succ j =>
      simp only [assignTempIndex, List.getElem?_cons_succ, List.take_succ_cons,
        List.countP_cons]
      rw [ih]
      cases h : rest[j]? with
      | none => simp
      | some g =>
        simp only [Option.map_some']
        have hocc := occNext_cons f.LowerFieldName (occNext m f.LowerFieldName) m
          g.LowerFieldName
        by_cases heq : g.LowerFieldName = f.LowerFieldName
        · have hb1 : (g.LowerFieldName == f.LowerFieldName) = true := beq_iff_eq.mpr heq
          have hb2 : (f.LowerFieldName == g.LowerFieldName) = true :=
            beq_iff_eq.mpr heq.symm
          rw [hocc]
          simp only [Option.some.injEq, QueryedField.mk.injEq, hb1, hb2, if_true,
            true_and, and_true]
          rw [heq]
          omega
        · have hb1 : (g.LowerFieldName == f.LowerFieldName) = false :=
            beq_eq_false_iff_ne.mpr heq
          have hb2 : (f.LowerFieldName == g.LowerFieldName) = false :=
            beq_eq_false_iff_ne.mpr (Ne.symm heq)
          rw [hocc, if_neg (by simp [hb1]), if_neg (by simp [hb2])]
          simp

theorem mkQueryedFields_getElem? (ns : List String) (ts : List ColumnType) (i : Nat) :
    (mkQueryedFields ns ts)[i]? = (ns[i]?).map (fun n =>
      QueryedField.mk n n.toLower ((ts[i]?).getD (ColumnType.mk "")) 0 none) := by
  induction ns generalizing ts i with
  | nil => simp [mkQueryedFields]
  | cons n ns ih =>
    cases i with
    | zero => cases ts <;> simp [mkQueryedFields]
    | succ j => cases ts <;> simp [mkQueryedFields, ih]

theorem mkQueryedFields_length (ns : List String) (ts : List ColumnType) :
    (mkQueryedFields ns ts).length = ns.length := by
  induction ns generalizing ts with
  | nil => simp [mkQueryedFields]
  | cons n ns ih => simp [mkQueryedFields, ih]

theorem assignTempIndex_length (fs : List QueryedField) (m : List (String × Nat)) :
    (assignTempIndex m fs).length = fs.length := by
  induction fs generalizing m with
  | nil => simp [assignTempIndex]
  | cons f rest ih => simp [assignTempIndex, ih]

theorem mkQueryedFields_take_countP (ns : List String) (ts : List ColumnType)
    (i : Nat) (s : String) :
    ((mkQueryedFields ns ts).take i).countP (fun g => g.LowerFieldName == s) =
      (ns.take i).countP (fun n => n.toLower == s) := by
  induction ns generalizing ts i with
  | nil => simp [mkQueryedFields]
  | cons n ns ih =>
    cases i with
    | zero => simp
    | succ j =>
      simp [mkQueryedFields, List.countP_cons, ih ts.tail j]

theorem ParseTableSchema_Fields_getElem? (cs : ColumnsSchema) (tbl : Table) (i : Nat) :
    (cs.ParseTableSchema tbl).Fields[i]? = (cs.Fields[i]?).map (fun f =>
      QueryedField.mk f.FieldName f.LowerFieldName f.ColumnType f.TempIndex
        (tbl.GetColumnIdx f.FieldName f.TempIndex)) := by
  simp [ColumnsSchema.ParseTableSchema]

/-- C5: `ParseColumnsSchema` assigns each result column a `TempIndex` equal
to the number of earlier result columns with the same lower-cased name (the
first occurrence gets 0, deterministically), and binds each `QueryedField`
to the struct column located case-insensitively by that name and index —
`none` when the index exceeds the count of same-named struct columns or the
table descriptor is absent. -/
theorem C5_disambiguation_and_binding (fieldNames : List String) (types : List ColumnType)
    (table : Option Table) (i : Nat) (h : i < fieldNames.length) :
    (ParseColumnsSchema fieldNames types table).Fields.length = fieldNames.length ∧
    ∃ f, (ParseColumnsSchema fieldNames types table).Fields[i]? = some f ∧
      f.FieldName = fieldNames[i] ∧
      f.LowerFieldName = fieldNames[i].toLower ∧
      f.TempIndex =
        (fieldNames.take i).countP (fun n => n.toLower == fieldNames[i].toLower) ∧
      f.ColumnSchema =
        (match table with
         | some tb => tb.GetColumnIdx fieldNames[i] f.TempIndex
         | none => none) ∧
      ∀ tb, table = some tb →
        (tb.columns.filter (fun c => c.name.toLower == fieldNames[i].toLower)).length ≤
          f.TempIndex →
        f.ColumnSchema = none := by
  have hfs0 : (assignTempIndex [] (mkQueryedFields fieldNames types))[i]? =
      some (QueryedField.mk fieldNames[i] fieldNames[i].toLower
        ((types[i]?).getD (ColumnType.mk ""))
        ((fieldNames.take i).countP (fun n => n.toLower == fieldNames[i].toLower)) none) := by
    rw [assignTempIndex_getElem?, mkQueryedFields_getElem?, List.getElem?_eq_getElem h]
    simp only [Option.map_some']
    rw [mkQueryedFields_take_countP]
    simp [occNext, List.lookup]
  have hlen0 : (assignTempIndex [] (mkQueryedFields fieldNames types)).length =
      fieldNames.length := by
    rw [assignTempIndex_length, mkQueryedFields_length]
  cases table with
  | none =>
    refine ⟨by simpa [ParseColumnsSchema] using hlen0, ?_⟩
    refine ⟨_, by simpa [ParseColumnsSchema] using hfs0, rfl, rfl, rfl, rfl, ?_⟩
    intro tb htb
    cases htb
  | some tb =>
    refine ⟨?_, ?_⟩
    · simpa [ParseColumnsSchema, ColumnsSchema.ParseTableSchema] using hlen0
    · refine ⟨QueryedField.mk fieldNames[i] fieldNames[i].toLower
        ((types[i]?).getD (ColumnType.mk ""))
        ((fieldNames.take i).countP (fun n => n.toLower == fieldNames[i].toLower))
        (tb.GetColumnIdx fieldNames[i]
          ((fieldNames.take i).countP (fun n => n.toLower == fieldNames[i].toLower))),
        ?_, rfl, rfl, rfl, rfl, ?_⟩
      · have := ParseTableSchema_Fields_getElem?
          (ColumnsSchema.mk (assignTempIndex [] (mkQueryedFields fieldNames types)) [] []) tb i
        simp only [ParseColumnsSchema]
        rw [this, hfs0]
        rfl
      · intro tb2 htb2 hle
        cases htb2
        exact List.getElem?_eq_none hle

/-- Witness for C5 at a concrete duplicated-name result set. -/
theorem C5_disambiguation_and_binding_witness :
    1 < (["id", "ID"] : List String).length ∧
    ((ParseColumnsSchema ["id", "ID"] [ColumnType.mk "INT", ColumnType.mk "INT"]
        (some (Table.mk [Column.mk "Id"] ["Id"]))).Fields.length =
      (["id", "ID"] : List String).length ∧
    ∃ f, (ParseColumnsSchema ["id", "ID"] [ColumnType.mk "INT", ColumnType.mk "INT"]
        (some (Table.mk [Column.mk "Id"] ["Id"]))).Fields[1]? = some f ∧
      f.FieldName = (["id", "ID"] : List String)[1] ∧
      f.LowerFieldName = (["id", "ID"] : List String)[1].toLower ∧
      f.TempIndex =
        ((["id", "ID"] : List String).take 1).countP
          (fun n => n.toLower == (["id", "ID"] : List String)[1].toLower) ∧
      f.ColumnSchema =
        (match some (Table.mk [Column.mk "Id"] ["Id"]) with
         | some tb => tb.GetColumnIdx (["id", "ID"] : List String)[1] f.TempIndex
         | none => none) ∧
      ∀ tb, some (Table.mk [Column.mk "Id"] ["Id"]) = some tb →
        (tb.columns.filter
          (fun c => c.name.toLower == (["id", "ID"] : List String)[1].toLower)).length ≤
          f.TempIndex →
        f.ColumnSchema = none) :=
  ⟨by decide, C5_disambiguation_and_binding ["id", "ID"]
    [ColumnType.mk "INT", ColumnType.mk "INT"]
    (some (Table.mk [Column.mk "Id"] ["Id"])) 1 (by decide)⟩

/-! ## Cache coordinator lemmas -/

/-- The bean a per-id cache probe yields once filtered through the `isHit`
type check: `some` exactly on a type-correct hit. -/
def hitBean (t : GoType) (getBean : String → Option Bean) (sid : String) : Option Bean :=
  match getBean sid with
  | some b => if typeMatches b t then some b else none
  | none => none

/-- Per-key cache integrity, decidably: a type-correct hit stringifies back
to the cache key it sits under (otherwise `cacheFind` returns
`ErrCacheFailed`, claim C10). -/
def hitOk (t : GoType) (getBean : String → Option Bean) (sid : String) : Bool :=
  match hitBean t getBean sid with
  | some b => pkToString b.pk == sid
  | none => true

/-- The position map `resolveCached` builds for the missed ids (later
entries first, so a first-match lookup realizes Go map overwrite). -/
def missIdidxes (t : GoType) (getBean : String → Option Bean) :
    List PK → Nat → List (String × Nat)
  | [], _ => []
  | id :: rest, idx =>
    if (hitBean t getBean (pkToString id)).isSome then
      missIdidxes t getBean rest (idx + 1)
    else
      missIdidxes t getBean rest (idx + 1) ++ [(pkToString id, idx)]

/-- The ids `resolveCached` reports as cache misses, in original order. -/
def missedIds (t : GoType) (getBean : String → Option Bean) (ids : List PK) : List PK :=
  ids.filter (fun id => (hitBean t getBean (pkToString id)).isNone)

theorem resolveCached_eq_ok (t : GoType) (getBean : String → Option Bean)
    (ids : List PK) (idx : Nat)
    (hok : ∀ id ∈ ids, hitOk t getBean (pkToString id) = true) :
    resolveCached t getBean ids idx =
      Except.ok (ids.map (fun id => hitBean t getBean (pkToString id)),
        missedIds t getBean ids,
        missIdidxes t getBean ids idx) := by
  induction ids generalizing idx with
  | nil => rfl
  | cons id rest ih =>
    have hokid := hok id (List.mem_cons_self id rest)
    have hokrest : ∀ i ∈ rest, hitOk t getBean (pkToString i) = true :=
      fun i hi => hok i (List.mem_cons_of_mem id hi)
    cases hb : getBean (pkToString id) with
    | none =>
      simp [resolveCached, hb, ih _ hokrest, hitBean, missedIds, missIdidxes,
        List.filter_cons]
    | some b =>
      by_cases htm : typeMatches b t = true
      · have hpk : (pkToString b.pk == pkToString id) = true := by
          have : hitBean t getBean (pkToString id) = some b := by
            simp [hitBean, hb, htm]
          simpa [hitOk, this] using hokid
        have hpkeq : pkToString b.pk = pkToString id := beq_iff_eq.mp hpk
        simp [resolveCached, hb, htm, hpkeq, ih _ hokrest, hitBean, missedIds,
          missIdidxes, List.filter_cons]
      · simp [resolveCached, hb, htm, ih _ hokrest, hitBean, missedIds,
          missIdidxes, List.filter_cons]

theorem resolveCached_error_of_bad (t : GoType) (getBean : String → Option Bean)
    (ids : List PK) (idx : Nat) (id0 : PK) (b : Bean)
    (hmem : id0 ∈ ids) (hb : getBean (pkToString id0) = some b)
    (htm : typeMatches b t = true) (hpk : pkToString b.pk ≠ pkToString id0) :
    resolveCached t getBean ids idx = Except.error Err.cacheFailed := by
  revert hmem
  induction ids generalizing idx with
  | nil => intro hmem; cases hmem
  | cons id rest ih =>
    intro hmem
    rcases List.mem_cons.mp hmem with h1 | h2
    · subst h1
      simp [resolveCached, hb, htm, hpk]
    · cases hbh : getBean (pkToString id) with
      | none => simp [resolveCached, hbh, ih _ h2]
      | some bh =>
        by_cases htmh : typeMatches bh t = true
        · by_cases hpkh : pkToString bh.pk = pkToString id
          · simp [resolveCached, hbh, htmh, hpkh, ih _ h2]
          · simp [resolveCached, hbh, htmh, hpkh]
        · simp [resolveCached, hbh, htmh, ih _ h2]

theorem missIdidxes_lookup_eq_none (t : GoType) (getBean : String → Option Bean)
    (ids : List PK) (idx0 : Nat) (sid : String)
    (hnot : sid ∉ ids.map pkToString) :
    (missIdidxes t getBean ids idx0).lookup sid = none := by
  induction ids generalizing idx0 with
  | nil => rfl
  | cons id rest ih =>
    have hne : sid ≠ pkToString id := by
      intro hx
      exact hnot (by simp [hx])
    have hrest : sid ∉ rest.map pkToString := by
      intro hx
      exact hnot (by simp [hx])
    cases hh : (hitBean t getBean (pkToString id)).isSome with
    | true => simp [missIdidxes, hh, ih _ hrest]
    | false =>
      simp only [missIdidxes, hh, Bool.false_eq_true, if_false, List.lookup_append,
        ih _ hrest, Option.none_or]
      simp [List.lookup_cons, beq_eq_false_iff_ne.mpr hne]

theorem missIdidxes_lookup_some (t : GoType) (getBean : String → Option Bean)
    (ids : List PK) (idx0 : Nat) (sid : String) (j : Nat)
    (hl : (missIdidxes t getBean ids idx0).lookup sid = some j) :
    ∃ k, ∃ hk : k < ids.length, j = idx0 + k ∧ pkToString ids[k] = sid ∧
      hitBean t getBean sid = none := by
  induction ids generalizing idx0 with
  | nil => simp [missIdidxes, List.lookup] at hl
  | cons id rest ih =>
    cases hh : (hitBean t getBean (pkToString id)).isSome with
    | true =>
      rw [missIdidxes, if_pos (by simp [hh])] at hl
      obtain ⟨k, hk, hj, hsid, hmiss⟩ := ih (idx0 + 1) hl
      exact ⟨k + 1, by simpa using Nat.succ_lt_succ hk, by omega, by simpa using hsid, hmiss⟩
    | false =>
      rw [missIdidxes, if_neg (by simp [hh]), List.lookup_append] at hl
      cases hrest : (missIdidxes t getBean rest (idx0 + 1)).lookup sid with
      | some j2 =>
        rw [hrest] at hl
        simp only [Option.or_some] at hl
        cases hl
        obtain ⟨k, hk, hj, hsid, hmiss⟩ := ih (idx0 + 1) hrest
        exact ⟨k + 1, by simpa using Nat.succ_lt_succ hk, by omega, by simpa using hsid, hmiss⟩
      | none =>
        rw [hrest] at hl
        simp only [Option.none_or, List.lookup_cons] at hl
        cases hbeq : sid == pkToString id with
        | false => simp [List.lookup, hbeq] at hl
        | true =>
          simp only [hbeq, List.lookup] at hl
          cases hl
          have hsid : pkToString id = sid := (beq_iff_eq.mp hbeq).symm
          refine ⟨0, by simp, by omega, by simpa using hsid, ?_⟩
          rw [← hsid]
          exact Option.not_isSome_iff_eq_none.mp (by simp [hh])

theorem missIdidxes_lookup_of_miss (t : GoType) (getBean : String → Option Bean)
    (ids : List PK) (idx0 : Nat) (k : Nat) (hk : k < ids.length)
    (hnodup : (ids.map pkToString).Nodup)
    (hmiss : hitBean t getBean (pkToString ids[k]) = none) :
    (missIdidxes t getBean ids idx0).lookup (pkToString ids[k]) = some (idx0 + k) := by
  induction ids generalizing idx0 k with
  | nil => cases hk
  | cons id rest ih =>
    have hnodup1 : pkToString id ∉ rest.map pkToString := (List.nodup_cons.mp hnodup).1
    have hnodup2 : (rest.map pkToString).Nodup := (List.nodup_cons.mp hnodup).2
    cases k with
    | zero =>
      simp only [List.getElem_cons_zero] at hmiss ⊢
      rw [missIdidxes, if_neg (by simp [hmiss]), List.lookup_append,
        missIdidxes_lookup_eq_none t getBean rest (idx0 + 1) _ hnodup1]
      simp [List.lookup_cons]
    | succ k2 =>
      have hk2 : k2 < rest.length := by simpa using hk
      simp only [List.getElem_cons_succ] at hmiss ⊢
      have hrec := ih (idx0 + 1) k2 hk2 hnodup2 hmiss
      cases hh : (hitBean t getBean (pkToString id)).isSome with
      | true =>
        rw [missIdidxes, if_pos (by simp [hh]), hrec]
        congr 1
        omega
      | false =>
        rw [missIdidxes, if_neg (by simp [hh]), List.lookup_append, hrec]
        simp only [Option.or_some]
        congr 1
        omega

/-- The `temps` slot a backfilled bean lands in: the recorded position of
its primary-key string, index 0 on a (never reached under the theorems'
hypotheses) Go map miss. -/
def targetIdx (ididxes : List (String × Nat)) (b : Bean) : Nat :=
  (ididxes.lookup (pkToString b.pk)).getD 0

theorem applyBackfill_length (tableName : String) (ididxes : List (String × Nat))
    (bf : List Bean) (temps : List (Option Bean)) (st : CacheState) :
    (applyBackfill tableName ididxes bf temps st).1.length = temps.length := by
  induction bf generalizing temps st with
  | nil => rfl
  | cons b rest ih => simp [applyBackfill, ih]

theorem applyBackfill_fst_getElem? (tableName : String) (ididxes : List (String × Nat))
    (bf : List Bean) (temps : List (Option Bean)) (st : CacheState) (j : Nat)
    (hnodup : (bf.map (targetIdx ididxes)).Nodup)
    (hbound : ∀ b ∈ bf, targetIdx ididxes b < temps.length) :
    (applyBackfill tableName ididxes bf temps st).1[j]? =
      match bf.find? (fun b => targetIdx ididxes b == j) with
      | some b => some (some b)
      | none => temps[j]? := by
  induction bf generalizing temps st with
  | nil => simp [applyBackfill]
  | cons b rest ih =>
    have hnodup1 : targetIdx ididxes b ∉ rest.map (targetIdx ididxes) :=
      (List.nodup_cons.mp hnodup).1
    have hnodup2 : (rest.map (targetIdx ididxes)).Nodup := (List.nodup_cons.mp hnodup).2
    have hb : targetIdx ididxes b < temps.length := hbound b (List.mem_cons_self b rest)
    have hbound2 : ∀ b2 ∈ rest, targetIdx ididxes b2 <
        (temps.set (targetIdx ididxes b) (some b)).length := by
      intro b2 hb2
      rw [List.length_set]
      exact hbound b2 (List.mem_cons_of_mem b hb2)
    rw [applyBackfill]
    rw [show (List.lookup (pkToString b.pk) ididxes).getD 0 = targetIdx ididxes b from rfl]
    rw [ih _ _ hnodup2 hbound2]
    cases hfr : rest.find? (fun b2 => targetIdx ididxes b2 == j) with
    | some b2 =>
      have hfind := List.find?_some hfr
      have hb2j : targetIdx ididxes b2 = j := beq_iff_eq.mp hfind
      have hbnej : (targetIdx ididxes b == j) = false := by
        cases hcontra : targetIdx ididxes b == j with
        | false => rfl
        | true =>
          exfalso
          apply hnodup1
          have hmem := List.mem_of_find?_eq_some hfr
          have heqt : targetIdx ididxes b = targetIdx ididxes b2 := by
            rw [beq_iff_eq.mp hcontra, ← hb2j]
          rw [heqt]
          exact List.mem_map_of_mem _ hmem
      simp [List.find?_cons, hbnej, hfr]
    | none =>
      cases hbj : targetIdx ididxes b == j with
      | true =>
        have hj : targetIdx ididxes b = j := beq_iff_eq.mp hbj
        rw [List.getElem?_set, if_pos hj, if_pos (hj ▸ hb)]
        simp [List.find?_cons, hbj]
      | false =>
        have hj : targetIdx ididxes b ≠ j := by
          intro hx
          rw [beq_iff_eq.mpr hx] at hbj
          cases hbj
        rw [List.getElem?_set, if_neg hj]
        simp [List.find?_cons, hbj, hfr]

theorem applyBackfill_snd_idLists (tableName : String) (ididxes : List (String × Nat))
    (bf : List Bean) (temps : List (Option Bean)) (st : CacheState) :
    (applyBackfill tableName ididxes bf temps st).2.idLists = st.idLists := by
  induction bf generalizing temps st with
  | nil => rfl
  | cons b rest ih => simp [applyBackfill, ih, PutBean]

theorem GetBean_PutBean (st : CacheState) (tableName sid1 sid : String) (b : Bean) :
    GetBean (PutBean st tableName sid1 b) tableName sid =
      if sid = sid1 then some b else GetBean st tableName sid := by
  by_cases h : sid = sid1
  · subst h
    simp [GetBean, PutBean, List.lookup_cons]
  · have : ((tableName, sid) == (tableName, sid1)) = false :=
      beq_eq_false_iff_ne.mpr (by simp [h])
    simp [GetBean, PutBean, List.lookup_cons, this, h]

theorem applyBackfill_snd_GetBean (tableName : String) (ididxes : List (String × Nat))
    (bf : List Bean) (temps : List (Option Bean)) (st : CacheState) (sid : String) :
    GetBean (applyBackfill tableName ididxes bf temps st).2 tableName sid =
      match bf.reverse.find? (fun b => pkToString b.pk == sid) with
      | some b => some b
      | none => GetBean st tableName sid := by
  induction bf generalizing temps st with
  | nil => rfl
  | cons b rest ih =>
    rw [applyBackfill, ih]
    rw [List.reverse_cons, List.find?_append]
    cases hfr : rest.reverse.find? (fun b2 => pkToString b2.pk == sid) with
    | some b2 => simp
    | none =>
      simp only [Option.none_or]
      rw [GetBean_PutBean]
      cases hpb : pkToString b.pk == sid with
      | true =>
        rw [if_pos (beq_iff_eq.mp hpb).symm]
        simp [List.find?_cons, hpb]
      | false =>
        rw [if_neg (fun hx => by rw [beq_iff_eq.mpr hx.symm] at hpb; cases hpb)]
        simp [List.find?_cons, hpb]

theorem find?_congr_mem {α : Type} (l : List α) (p q : α → Bool)
    (h : ∀ a ∈ l, p a = q a) : l.find? p = l.find? q := by
  induction l with
  | nil => rfl
  | cons a rest ih =>
    rw [List.find?_cons, List.find?_cons, h a (List.mem_cons_self a rest),
      ih (fun b hb => h b (List.mem_cons_of_mem a hb))]

theorem find?_perm_of_unique {α : Type} (l l2 : List α) (p : α → Bool) (hp : l.Perm l2)
    (huniq : ∀ a ∈ l, ∀ b ∈ l, p a = true → p b = true → a = b) :
    l.find? p = l2.find? p := by
  cases hfl : l.find? p with
  | none =>
    have hnone := List.find?_eq_none.mp hfl
    exact (List.find?_eq_none.mpr (fun x hx => hnone x (hp.mem_iff.mpr hx))).symm
  | some a =>
    have hpa := List.find?_some hfl
    have hmem := List.mem_of_find?_eq_some hfl
    have hsome : ((l2.find? p).isSome) = true :=
      List.find?_isSome.mpr ⟨a, hp.mem_iff.mp hmem, hpa⟩
    obtain ⟨b, hb⟩ := Option.isSome_iff_exists.mp hsome
    have hpb := List.find?_some hb
    have hmemb : b ∈ l := hp.mem_iff.mpr (List.mem_of_find?_eq_some hb)
    rw [hb, huniq b hmemb a hmem hpb hpa]

/-- The bean the cache-assisted call ultimately associates to an id: its
type-correct cache hit when there is one, otherwise the (unique) backfilled
bean carrying that primary-key string, otherwise none (the skipped case). -/
def resolvedBean (t : GoType) (getBean : String → Option Bean) (bf : List Bean)
    (id : PK) : Option Bean :=
  match hitBean t getBean (pkToString id) with
  | some b => some b
  | none => bf.find? (fun b => pkToString b.pk == pkToString id)

/-- The slice output of a successful cache-assisted find: the resolvable
beans, in original id-list order. -/
def cacheOut (t : GoType) (getBean : String → Option Bean) (bf : List Bean)
    (ids : List PK) : List Bean :=
  ids.filterMap (resolvedBean t getBean bf)

theorem backfill_target_char (t : GoType) (g : String → Option Bean) (ids : List PK)
    (hnodup : (ids.map pkToString).Nodup) (b : Bean)
    (hmem : pkToString b.pk ∈ (missedIds t g ids).map pkToString) :
    ∃ k, ∃ hk : k < ids.length,
      targetIdx (missIdidxes t g ids 0) b = k ∧
      pkToString ids[k] = pkToString b.pk ∧
      hitBean t g (pkToString ids[k]) = none := by
  obtain ⟨id2, hid2mem, hid2⟩ := List.mem_map.mp hmem
  have hid2ids : id2 ∈ ids := (List.mem_filter.mp hid2mem).1
  have hid2miss : (hitBean t g (pkToString id2)).isNone = true :=
    (List.mem_filter.mp hid2mem).2
  obtain ⟨k, hk, hidk⟩ := List.getElem_of_mem hid2ids
  have hmiss : hitBean t g (pkToString ids[k]) = none := by
    rw [hidk]
    exact Option.isNone_iff_eq_none.mp hid2miss
  have hkey : pkToString b.pk = pkToString ids[k] := by rw [hidk, hid2]
  have hlk := missIdidxes_lookup_of_miss t g ids 0 k hk hnodup hmiss
  refine ⟨k, hk, ?_, by rw [hidk, hid2], hmiss⟩
  rw [targetIdx, hkey, hlk]
  simp


theorem processIds_char (t : GoType) (tableName : String) (db : DB) (ids : List PK)
    (st : CacheState) (q : Nat)
    (hok : ∀ id ∈ ids, hitOk t (GetBean st tableName) (pkToString id) = true)
    (hnodup : (ids.map pkToString).Nodup)
    (hbfmem : ∀ b ∈ db.backfill (missedIds t (GetBean st tableName) ids),
      pkToString b.pk ∈ (missedIds t (GetBean st tableName) ids).map pkToString)
    (hbfnodup : ((db.backfill (missedIds t (GetBean st tableName) ids)).map
      (fun b => pkToString b.pk)).Nodup) :
    processIds t tableName db ids st q =
      (Except.ok (cacheOut t (GetBean st tableName)
          (db.backfill (missedIds t (GetBean st tableName) ids)) ids),
        (applyBackfill tableName (missIdidxes t (GetBean st tableName) ids 0)
          (db.backfill (missedIds t (GetBean st tableName) ids))
          (ids.map (fun id => hitBean t (GetBean st tableName) (pkToString id))) st).2,
        q) := by
  have hres := resolveCached_eq_ok t (GetBean st tableName) ids 0 hok
  set g := GetBean st tableName with hg
  set bf := db.backfill (missedIds t g ids) with hbf
  set idxs := missIdidxes t g ids 0 with hidxs
  have hchar : ∀ b ∈ bf, ∃ k, ∃ hk : k < ids.length,
      targetIdx idxs b = k ∧ pkToString ids[k] = pkToString b.pk ∧
      hitBean t g (pkToString ids[k]) = none :=
    fun b hb => backfill_target_char t g ids hnodup b (hbfmem b hb)
  have hsid_inj : ∀ k1 k2, ∀ hk1 : k1 < ids.length, ∀ hk2 : k2 < ids.length,
      pkToString ids[k1] = pkToString ids[k2] → k1 = k2 := by
    intro k1 k2 hk1 hk2 he
    have hk1m : k1 < (ids.map pkToString).length := by simpa using hk1
    have hk2m : k2 < (ids.map pkToString).length := by simpa using hk2
    have h1 : (ids.map pkToString)[k1] = (ids.map pkToString)[k2] := by
      rw [List.getElem_map, List.getElem_map]
      exact he
    exact hnodup.getElem_inj_iff.mp h1
  have hbound : ∀ b ∈ bf, targetIdx idxs b <
      (ids.map (fun id => hitBean t g (pkToString id))).length := by
    intro b hb
    obtain ⟨k, hk, htgt, _, _⟩ := hchar b hb
    rw [List.length_map, htgt]
    exact hk
  have htgtnodup : (bf.map (targetIdx idxs)).Nodup := by
    have hpair : bf.Pairwise (fun a b => pkToString a.pk ≠ pkToString b.pk) :=
      List.pairwise_map.mp hbfnodup
    have hpair2 : bf.Pairwise (fun a b => targetIdx idxs a ≠ targetIdx idxs b) := by
      refine hpair.imp_of_mem ?_
      intro a b ha hb hne htgteq
      obtain ⟨ka, hka, htga, hsida, _⟩ := hchar a ha
      obtain ⟨kb, hkb, htgb, hsidb, _⟩ := hchar b hb
      apply hne
      have hkk : ka = kb := by rw [← htga, ← htgb, htgteq]
      rw [← hsida, ← hsidb]
      simp [hkk]
    exact List.pairwise_map.mpr hpair2
  have hpt : (applyBackfill tableName idxs bf
      (ids.map (fun id => hitBean t g (pkToString id))) st).1 =
      ids.map (resolvedBean t g bf) := by
    apply List.ext_getElem?
    intro j
    rw [applyBackfill_fst_getElem? tableName idxs bf _ st j htgtnodup hbound]
    by_cases hj : j < ids.length
    · cases hhit : hitBean t g (pkToString ids[j]) with
      | some b0 =>
        have hfr : bf.find? (fun b => targetIdx idxs b == j) = none := by
          rw [List.find?_eq_none]
          intro b hbmem hpb
          obtain ⟨k, hk, htgt, hsid, hmiss2⟩ := hchar b hbmem
          have hkj : k = j := by rw [← htgt]; exact beq_iff_eq.mp hpb
          subst hkj
          rw [hmiss2] at hhit
          cases hhit
        rw [hfr]
        simp [List.getElem?_eq_getElem hj, resolvedBean, hhit]
      | none =>
        have hcong : bf.find? (fun b => targetIdx idxs b == j) =
            bf.find? (fun b => pkToString b.pk == pkToString ids[j]) := by
          apply find?_congr_mem
          intro b hbmem
          obtain ⟨k, hk, htgt, hsid, hmiss2⟩ := hchar b hbmem
          rw [htgt]
          by_cases hkj : k = j
          · have h1 : (k == j) = true := beq_iff_eq.mpr hkj
            have h2 : (pkToString b.pk == pkToString ids[j]) = true := by
              apply beq_iff_eq.mpr
              rw [← hsid]
              simp [hkj]
            rw [h1, h2]
          · have h1 : (k == j) = false := beq_eq_false_iff_ne.mpr hkj
            have h2 : (pkToString b.pk == pkToString ids[j]) = false := by
              apply beq_eq_false_iff_ne.mpr
              intro hcon
              apply hkj
              exact hsid_inj k j hk hj (by rw [hsid, hcon])
            rw [h1, h2]
        rw [hcong]
        cases hfs : bf.find? (fun b => pkToString b.pk == pkToString ids[j]) with
        | some b1 =>
          simp [List.getElem?_eq_getElem hj, resolvedBean, hhit, hfs]
        | none =>
          simp [List.getElem?_eq_getElem hj, resolvedBean, hhit, hfs]
    · have hjge : ids.length ≤ j := Nat.le_of_not_lt hj
      have hfr : bf.find? (fun b => targetIdx idxs b == j) = none := by
        rw [List.find?_eq_none]
        intro b hbmem hpb
        obtain ⟨k, hk, htgt, _, _⟩ := hchar b hbmem
        have hkj : k = j := by rw [← htgt]; exact beq_iff_eq.mp hpb
        omega
      rw [hfr, List.getElem?_eq_none (by simpa using hjge),
        List.getElem?_eq_none (by simpa using hjge)]
  have hcompose : ∀ f : PK → Option Bean, composeSlice (ids.map f) = ids.filterMap f := by
    intro f
    rw [composeSlice, List.filterMap_map]
    rfl
  by_cases hmiss : missedIds t g ids = []
  · have hbfnil : bf = [] := by
      rw [List.eq_nil_iff_forall_not_mem]
      intro b hb
      have hin := hbfmem b hb
      rw [hmiss] at hin
      simp at hin
    have hisem : (missedIds t g ids).isEmpty = true := by
      rw [hmiss]; rfl
    simp only [processIds, hres, hisem, if_true]
    rw [hbfnil]
    have hout : composeSlice (ids.map (fun id => hitBean t g (pkToString id))) =
        cacheOut t g [] ids := by
      rw [hcompose]
      simp only [cacheOut]
      apply List.filterMap_congr
      intro id _
      cases hh : hitBean t g (pkToString id) <;> simp [resolvedBean, hh]
    rw [hout]
    rfl
  · have hisem : (missedIds t g ids).isEmpty = false := by
      cases hI : (missedIds t g ids).isEmpty with
      | false => rfl
      | true => exact absurd (List.isEmpty_iff.mp hI) hmiss
    simp only [processIds, hres, hisem, Bool.false_eq_true, if_false]
    rw [hpt, hcompose]
    rfl

theorem collectIdsAux_ok (rows : List PK) (i : Nat) (h : i + rows.length ≤ 500) :
    collectIdsAux i rows = Except.ok rows := by
  induction rows generalizing i with
  | nil => rfl
  | cons r rest ih =>
    have hcap : ¬ (500 < i + 1) := by
      simp only [List.length_cons] at h
      omega
    rw [collectIdsAux, if_neg hcap, ih (i + 1) (by simp only [List.length_cons] at h; omega)]

theorem collectIdsAux_err (rows : List PK) (i : Nat) (hne : rows ≠ [])
    (h : 500 < i + rows.length) :
    collectIdsAux i rows = Except.error Err.cacheFailed := by
  induction rows generalizing i with
  | nil => exact absurd rfl hne
  | cons r rest ih =>
    by_cases hcap : 500 < i + 1
    · rw [collectIdsAux, if_pos hcap]
    · have hrest : rest ≠ [] := by
        intro hx
        rw [hx] at h
        simp at h
        omega
      rw [collectIdsAux, if_neg hcap,
        ih (i + 1) hrest (by simp only [List.length_cons] at h; omega)]

theorem collectIds_ok (rows : List PK) (h : rows.length ≤ 500) :
    collectIds rows = Except.ok rows :=
  collectIdsAux_ok rows 0 (by omega)

theorem collectIds_err (rows : List PK) (h : 500 < rows.length) :
    collectIds rows = Except.error Err.cacheFailed :=
  collectIdsAux_err rows 0 (by intro hx; rw [hx] at h; simp at h) (by omega)

theorem cacheFind_guard_err (ctx : FindCtx) (db : DB) (t : GoType) (sqlStr : String)
    (args : List String) (st : CacheState)
    (h : ctx.canCache = false ∨ (IndexNoCase sqlStr "having").isSome = true ∨
      (IndexNoCase sqlStr "group by").isSome = true) :
    cacheFind ctx db t sqlStr args st = (Except.error Err.cacheFailed, st, 0) := by
  rw [cacheFind, if_pos]
  rcases h with h | h | h <;> simp [h]

theorem cacheFind_noRefTable (ctx : FindCtx) (db : DB) (t : GoType) (sqlStr : String)
    (args : List String) (st : CacheState)
    (href : ctx.refTable = none) (hca : ctx.cacher = true) :
    cacheFind ctx db t sqlStr args st = (Except.error Err.cacheFailed, st, 0) := by
  rw [cacheFind]
  by_cases hguard : (!ctx.canCache || (IndexNoCase sqlStr "having").isSome
      || (IndexNoCase sqlStr "group by").isSome) = true
  · rw [if_pos hguard]
  · rw [if_neg hguard, if_neg (by simp [hca]), if_pos (by rw [href]; rfl)]


theorem cacheFind_eligible_shape (ctx : FindCtx) (db : DB) (t : GoType) (sqlStr : String)
    (args : List String) (st : CacheState) (newsql : String)
    (hcc : ctx.canCache = true)
    (hhav : IndexNoCase sqlStr "having" = none)
    (hgrp : IndexNoCase sqlStr "group by" = none)
    (hca : ctx.cacher = true)
    (hnewsql : ConvertIDSQL ctx.refTable ctx.isMSSQL ctx.limitN sqlStr = newsql)
    (hne : newsql ≠ "") :
    cacheFind ctx db t sqlStr args st =
      (match GetCacheSql st ctx.tableName newsql args with
       | some ids => processIds t ctx.tableName db ids st 0
       | none =>
         match collectIds (db.idQuery newsql args) with
         | Except.error e => (Except.error e, st, 1)
         | Except.ok ids =>
           processIds t ctx.tableName db ids
             (PutCacheSql st ids ctx.tableName newsql args) 1) := by
  rw [cacheFind, if_neg (by simp [hcc, hhav, hgrp]), if_neg (by simp [hca])]
  simp only [hnewsql]
  rw [if_neg hne]

theorem find_of_cacheFind_failed (ctx : FindCtx) (db : DB) (destKind : DestKind)
    (elemType : GoType) (sqlStr : String) (args : List String) (st st1 : CacheState) (q : Nat)
    (hdk : destKind ≠ DestKind.other)
    (helig : (ctx.columnMapEmpty && ctx.canCache && ctx.cacher
      && !ctx.isDistinct && !ctx.unscoped) = true)
    (hcf : cacheFind ctx db elemType sqlStr args st = (Except.error Err.cacheFailed, st1, q)) :
    find ctx db destKind elemType sqlStr args st =
      ((noCacheFind ctx.refTable destKind elemType db.mainRows).1, st1, q,
        (noCacheFind ctx.refTable destKind elemType db.mainRows).2) := by
  rw [find, if_neg hdk, if_pos helig, hcf]

theorem find_of_cacheFind_ok (ctx : FindCtx) (db : DB) (destKind : DestKind)
    (elemType : GoType) (sqlStr : String) (args : List String) (st st1 : CacheState)
    (q : Nat) (out : List Bean)
    (hdk : destKind ≠ DestKind.other)
    (helig : (ctx.columnMapEmpty && ctx.canCache && ctx.cacher
      && !ctx.isDistinct && !ctx.unscoped) = true)
    (hcf : cacheFind ctx db elemType sqlStr args st = (Except.ok out, st1, q)) :
    find ctx db destKind elemType sqlStr args st = (Except.ok out, st1, q, 0) := by
  rw [find, if_neg hdk, if_pos helig, hcf]

theorem find_direct (ctx : FindCtx) (db : DB) (destKind : DestKind)
    (elemType : GoType) (sqlStr : String) (args : List String) (st : CacheState)
    (hdk : destKind ≠ DestKind.other)
    (helig : (ctx.columnMapEmpty && ctx.canCache && ctx.cacher
      && !ctx.isDistinct && !ctx.unscoped) = false) :
    find ctx db destKind elemType sqlStr args st =
      ((noCacheFind ctx.refTable destKind elemType db.mainRows).1, st, 0,
        (noCacheFind ctx.refTable destKind elemType db.mainRows).2) := by
  rw [find, if_neg hdk, if_neg (by rw [helig]; exact Bool.false_ne_true)]

/-- C6: no Find result is served from the cache when the statement requests
distinct projection, bypasses soft-delete scoping, or the generated SQL
contains "group by" or "having" case-insensitively: every such call is
materialized directly via `noCacheFind`, with the cache state untouched and
no id-resolution query executed. -/
theorem C6_cache_bypass (ctx : FindCtx) (db : DB) (destKind : DestKind)
    (elemType : GoType) (sqlStr : String) (args : List String) (st : CacheState)
    (hdk : destKind ≠ DestKind.other)
    (h : ctx.isDistinct = true ∨ ctx.unscoped = true ∨
      (IndexNoCase sqlStr "group by").isSome = true ∨
      (IndexNoCase sqlStr "having").isSome = true) :
    find ctx db destKind elemType sqlStr args st =
      ((noCacheFind ctx.refTable destKind elemType db.mainRows).1, st, 0,
        (noCacheFind ctx.refTable destKind elemType db.mainRows).2) := by
  by_cases helig : (ctx.columnMapEmpty && ctx.canCache && ctx.cacher
      && !ctx.isDistinct && !ctx.unscoped) = true
  · have hgh : (IndexNoCase sqlStr "having").isSome = true ∨
        (IndexNoCase sqlStr "group by").isSome = true := by
      rcases h with h | h | h | h
      · exfalso; simp [h] at helig
      · exfalso; simp [h] at helig
      · exact Or.inr h
      · exact Or.inl h
    have hcf := cacheFind_guard_err ctx db elemType sqlStr args st
      (Or.inr hgh)
    exact find_of_cacheFind_failed ctx db destKind elemType sqlStr args st st 0 hdk
      helig hcf
  · have hb : (ctx.columnMapEmpty && ctx.canCache && ctx.cacher
        && !ctx.isDistinct && !ctx.unscoped) = false := by
      cases hx : (ctx.columnMapEmpty && ctx.canCache && ctx.cacher
          && !ctx.isDistinct && !ctx.unscoped) with
      | true => exact absurd hx helig
      | false => rfl
    exact find_direct ctx db destKind elemType sqlStr args st hdk hb

/-- Witness for C6: a distinct-projection statement goes through
`noCacheFind` directly. -/
theorem C6_cache_bypass_witness :
    (DestKind.slice ≠ DestKind.other) ∧
    ((FindCtx.mk true true true false true "t" none false none).isDistinct = true ∨
      (FindCtx.mk true true true false true "t" none false none).unscoped = true ∨
      (IndexNoCase "SELECT * FROM t" "group by").isSome = true ∨
      (IndexNoCase "SELECT * FROM t" "having").isSome = true) ∧
    find (FindCtx.mk true true true false true "t" none false none)
        (DB.mk (fun _ _ => []) (fun _ => []) [Bean.mk (GoType.named "U") ["1"] "a"])
        DestKind.slice (GoType.named "U") "SELECT * FROM t" [] (CacheState.mk [] []) =
      ((noCacheFind none DestKind.slice (GoType.named "U")
          [Bean.mk (GoType.named "U") ["1"] "a"]).1, CacheState.mk [] [], 0,
        (noCacheFind none DestKind.slice (GoType.named "U")
          [Bean.mk (GoType.named "U") ["1"] "a"]).2) :=
  ⟨by decide, Or.inl (by decide),
    C6_cache_bypass (FindCtx.mk true true true false true "t" none false none)
      (DB.mk (fun _ _ => []) (fun _ => []) [Bean.mk (GoType.named "U") ["1"] "a"])
      DestKind.slice (GoType.named "U") "SELECT * FROM t" [] (CacheState.mk [] [])
      (by decide) (Or.inl (by decide))⟩

theorem GetCacheSql_PutCacheSql_self (st : CacheState) (ids : List PK)
    (tableName newsql : String) (args : List String) :
    GetCacheSql (PutCacheSql st ids tableName newsql args) tableName newsql args =
      some ids := by
  simp [GetCacheSql, PutCacheSql, List.lookup_cons]

/-- C1: on a cache-eligible Find whose id-resolution query yields more than
500 primary keys, `cacheFind` abandons caching with `ErrCacheFailed` — the
collection loop never looks past the first 501 rows — and `find` falls back
to `noCacheFind`, still returning every row of the query; with at most 500
keys the collection succeeds and the id list is stored in the cache under
the (table, rewritten SQL, args) fingerprint. -/
theorem C1_cap_500 (ctx : FindCtx) (db : DB) (t : GoType) (sqlStr : String)
    (args : List String) (st : CacheState) (newsql : String)
    (hcme : ctx.columnMapEmpty = true) (hcc : ctx.canCache = true)
    (hca : ctx.cacher = true) (hdist : ctx.isDistinct = false)
    (hunsc : ctx.unscoped = false)
    (hhav : IndexNoCase sqlStr "having" = none)
    (hgrp : IndexNoCase sqlStr "group by" = none)
    (hnewsql : ConvertIDSQL ctx.refTable ctx.isMSSQL ctx.limitN sqlStr = newsql)
    (hne : newsql ≠ "")
    (hmiss : GetCacheSql st ctx.tableName newsql args = none)
    (hptr : elemIsPtrPtr t = false) :
    (500 < (db.idQuery newsql args).length →
      cacheFind ctx db t sqlStr args st = (Except.error Err.cacheFailed, st, 1) ∧
      (∀ rest2, collectIds ((db.idQuery newsql args).take 501 ++ rest2) =
        Except.error Err.cacheFailed) ∧
      find ctx db DestKind.slice t sqlStr args st =
        (Except.ok db.mainRows, st, 1, 1)) ∧
    ((db.idQuery newsql args).length ≤ 500 →
      collectIds (db.idQuery newsql args) = Except.ok (db.idQuery newsql args) ∧
      cacheFind ctx db t sqlStr args st =
        processIds t ctx.tableName db (db.idQuery newsql args)
          (PutCacheSql st (db.idQuery newsql args) ctx.tableName newsql args) 1 ∧
      GetCacheSql (PutCacheSql st (db.idQuery newsql args) ctx.tableName newsql args)
        ctx.tableName newsql args = some (db.idQuery newsql args)) := by
  have hshape := cacheFind_eligible_shape ctx db t sqlStr args st newsql hcc hhav hgrp
    hca hnewsql hne
  constructor
  · intro hlen
    have herr := collectIds_err (db.idQuery newsql args) hlen
    have hcf : cacheFind ctx db t sqlStr args st = (Except.error Err.cacheFailed, st, 1) := by
      rw [hshape, hmiss, herr]
    refine ⟨hcf, ?_, ?_⟩
    · intro rest2
      apply collectIds_err
      rw [List.length_append, List.length_take]
      omega
    · have helig : (ctx.columnMapEmpty && ctx.canCache && ctx.cacher
          && !ctx.isDistinct && !ctx.unscoped) = true := by
        simp [hcme, hcc, hca, hdist, hunsc]
      have hfb := find_of_cacheFind_failed ctx db DestKind.slice t sqlStr args st st 1
        (by intro hx; cases hx) helig hcf
      rw [hfb, noCacheFind, if_neg (by simp [hptr])]
  · intro hlen
    have hok := collectIds_ok (db.idQuery newsql args) hlen
    refine ⟨hok, ?_, GetCacheSql_PutCacheSql_self st (db.idQuery newsql args)
      ctx.tableName newsql args⟩
    rw [hshape, hmiss, hok]

/-- Witness for C1 at an id query yielding 501 keys (and, through the same
application, the at-most-500 implication with a vacuous antecedent). -/
theorem C1_cap_500_witness :
    ((FindCtx.mk true true false false true "t"
        (some (Table.mk [Column.mk "id"] ["id"])) false none).columnMapEmpty = true) ∧
    (IndexNoCase "SELECT * FROM t" "having" = none) ∧
    (ConvertIDSQL (some (Table.mk [Column.mk "id"] ["id"])) false none
      "SELECT * FROM t" = "SELECT `id` FROM t") ∧
    (500 < ((DB.mk (fun _ _ => List.replicate 501 ["1"]) (fun _ => [])
      [Bean.mk (GoType.named "U") ["1"] "a"]).idQuery "SELECT `id` FROM t" []).length →
      cacheFind (FindCtx.mk true true false false true "t"
          (some (Table.mk [Column.mk "id"] ["id"])) false none)
        (DB.mk (fun _ _ => List.replicate 501 ["1"]) (fun _ => [])
          [Bean.mk (GoType.named "U") ["1"] "a"])
        (GoType.named "U") "SELECT * FROM t" [] (CacheState.mk [] []) =
        (Except.error Err.cacheFailed, CacheState.mk [] [], 1) ∧
      (∀ rest2, collectIds ((((DB.mk (fun _ _ => List.replicate 501 ["1"]) (fun _ => [])
          [Bean.mk (GoType.named "U") ["1"] "a"]).idQuery
          "SELECT `id` FROM t" []).take 501 ++ rest2)) =
        Except.error Err.cacheFailed) ∧
      find (FindCtx.mk true true false false true "t"
          (some (Table.mk [Column.mk "id"] ["id"])) false none)
        (DB.mk (fun _ _ => List.replicate 501 ["1"]) (fun _ => [])
          [Bean.mk (GoType.named "U") ["1"] "a"])
        DestKind.slice (GoType.named "U") "SELECT * FROM t" [] (CacheState.mk [] []) =
        (Except.ok [Bean.mk (GoType.named "U") ["1"] "a"], CacheState.mk [] [], 1, 1)) ∧
    (500 < ((DB.mk (fun _ _ => List.replicate 501 ["1"]) (fun _ => [])
      [Bean.mk (GoType.named "U") ["1"] "a"]).idQuery "SELECT `id` FROM t" []).length) :=
  ⟨by decide, by decide, by decide,
    (C1_cap_500 (FindCtx.mk true true false false true "t"
        (some (Table.mk [Column.mk "id"] ["id"])) false none)
      (DB.mk (fun _ _ => List.replicate 501 ["1"]) (fun _ => [])
        [Bean.mk (GoType.named "U") ["1"] "a"])
      (GoType.named "U") "SELECT * FROM t" [] (CacheState.mk [] [])
      "SELECT `id` FROM t" (by decide) (by decide) (by decide) (by decide) (by decide)
      (by decide) (by decide) (by decide) (by decide) rfl (by decide)).1,
    by decide⟩

/-- C10: on a type-correct cache hit whose bean's own primary-key string
(`table.IDOfV` stringified) differs from the cache key it was fetched
under, `cacheFind` returns `ErrCacheFailed` with the cache state untouched,
and `find` falls back to direct materialization via `noCacheFind`. -/
theorem C10_hit_pk_integrity (ctx : FindCtx) (db : DB) (t : GoType) (sqlStr : String)
    (args : List String) (st : CacheState) (newsql : String) (ids : List PK)
    (id0 : PK) (b : Bean)
    (hcme : ctx.columnMapEmpty = true) (hcc : ctx.canCache = true)
    (hca : ctx.cacher = true) (hdist : ctx.isDistinct = false)
    (hunsc : ctx.unscoped = false)
    (hhav : IndexNoCase sqlStr "having" = none)
    (hgrp : IndexNoCase sqlStr "group by" = none)
    (hnewsql : ConvertIDSQL ctx.refTable ctx.isMSSQL ctx.limitN sqlStr = newsql)
    (hne : newsql ≠ "")
    (hhit : GetCacheSql st ctx.tableName newsql args = some ids)
    (hmem : id0 ∈ ids)
    (hb : GetBean st ctx.tableName (pkToString id0) = some b)
    (htm : typeMatches b t = true)
    (hpk : pkToString b.pk ≠ pkToString id0)
    (hptr : elemIsPtrPtr t = false) :
    cacheFind ctx db t sqlStr args st = (Except.error Err.cacheFailed, st, 0) ∧
    find ctx db DestKind.slice t sqlStr args st = (Except.ok db.mainRows, st, 0, 1) := by
  have hres := resolveCached_error_of_bad t (GetBean st ctx.tableName) ids 0 id0 b
    hmem hb htm hpk
  have hcf : cacheFind ctx db t sqlStr args st =
      (Except.error Err.cacheFailed, st, 0) := by
    rw [cacheFind_eligible_shape ctx db t sqlStr args st newsql hcc hhav hgrp hca
      hnewsql hne, hhit]
    simp only [processIds, hres]
  refine ⟨hcf, ?_⟩
  have helig : (ctx.columnMapEmpty && ctx.canCache && ctx.cacher
      && !ctx.isDistinct && !ctx.unscoped) = true := by
    simp [hcme, hcc, hca, hdist, hunsc]
  have hfb := find_of_cacheFind_failed ctx db DestKind.slice t sqlStr args st st 0
    (by intro hx; cases hx) helig hcf
  rw [hfb, noCacheFind, if_neg (by simp [hptr])]

/-- Witness for C10: a cached bean stored under key "1" but whose own
primary key stringifies to "2". -/
theorem C10_hit_pk_integrity_witness :
    (GetBean (CacheState.mk [(("t", "SELECT `id` FROM t", []), [["1"]])]
        [(("t", "1"), Bean.mk (GoType.named "U") ["2"] "bad")]) "t"
      (pkToString ["1"]) = some (Bean.mk (GoType.named "U") ["2"] "bad")) ∧
    (typeMatches (Bean.mk (GoType.named "U") ["2"] "bad") (GoType.named "U") = true) ∧
    (pkToString (Bean.mk (GoType.named "U") ["2"] "bad").pk ≠ pkToString ["1"]) ∧
    (cacheFind (FindCtx.mk true true false false true "t"
          (some (Table.mk [Column.mk "id"] ["id"])) false none)
        (DB.mk (fun _ _ => []) (fun _ => []) [Bean.mk (GoType.named "U") ["1"] "a"])
        (GoType.named "U") "SELECT * FROM t" []
        (CacheState.mk [(("t", "SELECT `id` FROM t", []), [["1"]])]
          [(("t", "1"), Bean.mk (GoType.named "U") ["2"] "bad")]) =
      (Except.error Err.cacheFailed,
        CacheState.mk [(("t", "SELECT `id` FROM t", []), [["1"]])]
          [(("t", "1"), Bean.mk (GoType.named "U") ["2"] "bad")], 0) ∧
    find (FindCtx.mk true true false false true "t"
          (some (Table.mk [Column.mk "id"] ["id"])) false none)
        (DB.mk (fun _ _ => []) (fun _ => []) [Bean.mk (GoType.named "U") ["1"] "a"])
        DestKind.slice (GoType.named "U") "SELECT * FROM t" []
        (CacheState.mk [(("t", "SELECT `id` FROM t", []), [["1"]])]
          [(("t", "1"), Bean.mk (GoType.named "U") ["2"] "bad")]) =
      (Except.ok [Bean.mk (GoType.named "U") ["1"] "a"],
        CacheState.mk [(("t", "SELECT `id` FROM t", []), [["1"]])]
          [(("t", "1"), Bean.mk (GoType.named "U") ["2"] "bad")], 0, 1)) :=
  ⟨by decide, by decide, by decide,
    C10_hit_pk_integrity (FindCtx.mk true true false false true "t"
        (some (Table.mk [Column.mk "id"] ["id"])) false none)
      (DB.mk (fun _ _ => []) (fun _ => []) [Bean.mk (GoType.named "U") ["1"] "a"])
      (GoType.named "U") "SELECT * FROM t" []
      (CacheState.mk [(("t", "SELECT `id` FROM t", []), [["1"]])]
        [(("t", "1"), Bean.mk (GoType.named "U") ["2"] "bad")])
      "SELECT `id` FROM t" [["1"]] ["1"] (Bean.mk (GoType.named "U") ["2"] "bad")
      (by decide) (by decide) (by decide) (by decide) (by decide) (by decide)
      (by decide) (by decide) (by decide) (by decide) (by decide) (by decide)
      (by decide) (by decide) (by decide)⟩

/-- C3 (amended): a cached bean whose concrete type does not match the
expected element type is handled by `resolveCached` exactly as a cache miss
for that id — masking every mismatched entry to absent leaves the whole
per-id resolution unchanged, so the id joins the backfill set and the call
proceeds without any whole-call cache bypass. -/
theorem C3_type_mismatch_is_miss (t : GoType) (getBean : String → Option Bean)
    (ids : List PK) (idx : Nat) :
    resolveCached t getBean ids idx =
      resolveCached t (fun sid =>
        match getBean sid with
        | some b => if typeMatches b t then some b else none
        | none => none) ids idx := by
  induction ids generalizing idx with
  | nil => rfl
  | cons id rest ih =>
    cases hb : getBean (pkToString id) with
    | none => simp [resolveCached, hb, ih]
    | some b =>
      by_cases htm : typeMatches b t = true
      · simp [resolveCached, hb, htm, ih]
      · simp [resolveCached, hb, htm, ih]

/-- Counterexample to C3 as stated: a type-mismatched cached bean does NOT
force cache-bypass — `cacheFind` succeeds, serving that id from the
backfill query instead of returning `ErrCacheFailed`. -/
theorem C3_counterexample :
    (GetBean (CacheState.mk [(("t", "SELECT `id` FROM t", []), [["1"]])]
        [(("t", "1"), Bean.mk (GoType.named "V") ["1"] "stale")]) "t"
      (pkToString ["1"]) = some (Bean.mk (GoType.named "V") ["1"] "stale")) ∧
    (typeMatches (Bean.mk (GoType.named "V") ["1"] "stale") (GoType.named "U") = false) ∧
    ((cacheFind (FindCtx.mk true true false false true "t"
          (some (Table.mk [Column.mk "id"] ["id"])) false none)
        (DB.mk (fun _ _ => []) (fun l => l.filterMap (fun pk =>
          if pk = ["1"] then some (Bean.mk (GoType.named "U") ["1"] "fresh") else none))
          [])
        (GoType.named "U") "SELECT * FROM t" []
        (CacheState.mk [(("t", "SELECT `id` FROM t", []), [["1"]])]
          [(("t", "1"), Bean.mk (GoType.named "V") ["1"] "stale")])).1 =
      Except.ok [Bean.mk (GoType.named "U") ["1"] "fresh"]) := by
  refine ⟨by decide, by decide, by rfl⟩

/-- C4 (amended): a destination that is not a pointer to slice or map, and a
pointer-to-pointer element type, are rejected immediately with no query
executed; but the composite-primary-key-into-non-sequence-map-key shape
error is reported only AFTER the find query has been issued (one direct
query executed, before any row is placed), not before any query. -/
theorem C4_shape_error_timing (ctx : FindCtx) (db : DB) (elemType : GoType)
    (sqlStr : String) (args : List String) (st : CacheState) (tbl : Table)
    (href : ctx.refTable = some tbl) (hpk2 : 2 ≤ tbl.primaryKeys.length)
    (hca : ctx.cacher = false) (hptr : elemIsPtrPtr elemType = false) :
    (∀ ctx2 : FindCtx, ∀ db2 : DB, ∀ elem2 : GoType, ∀ sql2 : String,
      ∀ args2 : List String, ∀ st2 : CacheState,
      find ctx2 db2 DestKind.other elem2 sql2 args2 st2 =
        (Except.error Err.needsSliceOrMap, st2, 0, 0)) ∧
    (∀ ctx2 : FindCtx, ∀ db2 : DB, ∀ destKind2 : DestKind, ∀ elem2 : GoType,
      ∀ sql2 : String, ∀ args2 : List String, ∀ st2 : CacheState,
      elemIsPtrPtr elem2 = true → ctx2.refTable = none → destKind2 ≠ DestKind.other →
      find ctx2 db2 destKind2 elem2 sql2 args2 st2 =
        (Except.error Err.ptrToPtr, st2, 0, 0)) ∧
    find ctx db (DestKind.map false) elemType sqlStr args st =
      (Except.error Err.mapNonSliceKey, st, 0, 1) := by
  refine ⟨?_, ?_, ?_⟩
  · intro ctx2 db2 elem2 sql2 args2 st2
    rw [find, if_pos rfl]
  · intro ctx2 db2 destKind2 elem2 sql2 args2 st2 hpp href2 hdk2
    have hnc : noCacheFind ctx2.refTable destKind2 elem2 db2.mainRows =
        (Except.error Err.ptrToPtr, 0) := by
      rw [noCacheFind.eq_def, if_pos hpp]
    by_cases helig : (ctx2.columnMapEmpty && ctx2.canCache && ctx2.cacher
        && !ctx2.isDistinct && !ctx2.unscoped) = true
    · have hca2 : ctx2.cacher = true := by
        cases hx : ctx2.cacher with
        | true => rfl
        | false => simp [hx] at helig
      have hcf := cacheFind_noRefTable ctx2 db2 elem2 sql2 args2 st2 href2 hca2
      rw [find_of_cacheFind_failed ctx2 db2 destKind2 elem2 sql2 args2 st2 st2 0
        hdk2 helig hcf, hnc]
    · have hb : (ctx2.columnMapEmpty && ctx2.canCache && ctx2.cacher
          && !ctx2.isDistinct && !ctx2.unscoped) = false := by
        cases hx : (ctx2.columnMapEmpty && ctx2.canCache && ctx2.cacher
            && !ctx2.isDistinct && !ctx2.unscoped) with
        | true => exact absurd hx helig
        | false => rfl
      rw [find_direct ctx2 db2 destKind2 elem2 sql2 args2 st2 hdk2 hb, hnc]
  · have hb : (ctx.columnMapEmpty && ctx.canCache && ctx.cacher
        && !ctx.isDistinct && !ctx.unscoped) = false := by
      simp [hca]
    have hnc : noCacheFind ctx.refTable (DestKind.map false) elemType db.mainRows =
        (Except.error Err.mapNonSliceKey, 1) := by
      rw [noCacheFind.eq_def, if_neg (by simp [hptr]), href]
      have h0 : ¬ (tbl.primaryKeys.length = 0) := by omega
      have h1 : 1 < tbl.primaryKeys.length := by omega
      simp [h0, h1]
    rw [find_direct ctx db (DestKind.map false) elemType sqlStr args st
      (by intro hx; cases hx) hb, hnc]

/-- Counterexample to C4 as stated: fetching a two-column-primary-key table
into a map with non-sequence key type is rejected only after one query has
executed (the fourth component, the direct-query count, is 1, not 0). -/
theorem C4_counterexample :
    find (FindCtx.mk true true false false false "t2"
        (some (Table.mk [Column.mk "a", Column.mk "b"] ["a", "b"])) false none)
      (DB.mk (fun _ _ => []) (fun _ => []) [Bean.mk (GoType.named "U") ["1", "2"] "x"])
      (DestKind.map false) (GoType.named "U") "SELECT * FROM t2" []
      (CacheState.mk [] []) =
      (Except.error Err.mapNonSliceKey, CacheState.mk [] [], 0, 1) ∧
    (1 : Nat) ≠ 0 := by
  refine ⟨by rfl, by decide⟩

/-- Witness for C4 (amended) at the concrete composite-key map scenario. -/
theorem C4_shape_error_timing_witness :
    ((FindCtx.mk true true false false false "t2"
        (some (Table.mk [Column.mk "a", Column.mk "b"] ["a", "b"])) false
        none).refTable = some (Table.mk [Column.mk "a", Column.mk "b"] ["a", "b"])) ∧
    (2 ≤ (Table.mk [Column.mk "a", Column.mk "b"] ["a", "b"]).primaryKeys.length) ∧
    (find (FindCtx.mk true true false false false "t2"
          (some (Table.mk [Column.mk "a", Column.mk "b"] ["a", "b"])) false none)
        (DB.mk (fun _ _ => []) (fun _ => [])
          [Bean.mk (GoType.named "U") ["1", "2"] "x"])
        (DestKind.map false) (GoType.named "U") "SELECT * FROM t2" []
        (CacheState.mk [] []) =
      (Except.error Err.mapNonSliceKey, CacheState.mk [] [], 0, 1)) :=
  ⟨by decide, by decide,
    (C4_shape_error_timing (FindCtx.mk true true false false false "t2"
        (some (Table.mk [Column.mk "a", Column.mk "b"] ["a", "b"])) false none)
      (DB.mk (fun _ _ => []) (fun _ => []) [Bean.mk (GoType.named "U") ["1", "2"] "x"])
      (GoType.named "U") "SELECT * FROM t2" [] (CacheState.mk [] [])
      (Table.mk [Column.mk "a", Column.mk "b"] ["a", "b"])
      (by decide) (by decide) (by decide) (by decide)).2.2⟩

theorem length_filterMap_eq_countP {α β : Type} (f : α → Option β) (l : List α) :
    (l.filterMap f).length = l.countP (fun a => (f a).isSome) := by
  induction l with
  | nil => rfl
  | cons a rest ih =>
    cases hf : f a with
    | none => simp [List.filterMap_cons, hf, List.countP_cons, ih]
    | some b => simp [List.filterMap_cons, hf, List.countP_cons, ih]

/-- C7: during cache-assisted result composition, every resolved id whose
bean is neither a cache hit nor produced by the backfill query is skipped
(its `resolvedBean` is `none` and it contributes nothing to the output) and
the call still returns `Except.ok` with the remaining beans — a missing
backfill row never becomes a returned error. -/
theorem C7_missing_rows_skipped (ctx : FindCtx) (db : DB) (t : GoType) (sqlStr : String)
    (args : List String) (st : CacheState) (newsql : String) (ids : List PK)
    (hcc : ctx.canCache = true)
    (hhav : IndexNoCase sqlStr "having" = none)
    (hgrp : IndexNoCase sqlStr "group by" = none)
    (hca : ctx.cacher = true)
    (hnewsql : ConvertIDSQL ctx.refTable ctx.isMSSQL ctx.limitN sqlStr = newsql)
    (hne : newsql ≠ "")
    (hhit : GetCacheSql st ctx.tableName newsql args = some ids)
    (hok : ∀ id ∈ ids, hitOk t (GetBean st ctx.tableName) (pkToString id) = true)
    (hnodup : (ids.map pkToString).Nodup)
    (hbfmem : ∀ b ∈ db.backfill (missedIds t (GetBean st ctx.tableName) ids),
      pkToString b.pk ∈ (missedIds t (GetBean st ctx.tableName) ids).map pkToString)
    (hbfnodup : ((db.backfill (missedIds t (GetBean st ctx.tableName) ids)).map
      (fun b => pkToString b.pk)).Nodup) :
    ∃ st2, cacheFind ctx db t sqlStr args st =
      (Except.ok (ids.filterMap (resolvedBean t (GetBean st ctx.tableName)
        (db.backfill (missedIds t (GetBean st ctx.tableName) ids)))), st2, 0) ∧
    (ids.filterMap (resolvedBean t (GetBean st ctx.tableName)
        (db.backfill (missedIds t (GetBean st ctx.tableName) ids)))).length =
      ids.countP (fun id => (resolvedBean t (GetBean st ctx.tableName)
        (db.backfill (missedIds t (GetBean st ctx.tableName) ids)) id).isSome) := by
  have hchar := processIds_char t ctx.tableName db ids st 0 hok hnodup hbfmem hbfnodup
  refine ⟨(applyBackfill ctx.tableName (missIdidxes t (GetBean st ctx.tableName) ids 0)
      (db.backfill (missedIds t (GetBean st ctx.tableName) ids))
      (ids.map (fun id => hitBean t (GetBean st ctx.tableName) (pkToString id))) st).2,
    ?_, length_filterMap_eq_countP _ ids⟩
  rw [cacheFind_eligible_shape ctx db t sqlStr args st newsql hcc hhav hgrp hca
    hnewsql hne, hhit]
  show processIds t ctx.tableName db ids st 0 = _
  rw [hchar]
  rfl

/-- Witness for C7: two resolved ids, empty bean cache, backfill returns a
row only for the first id; the call succeeds with just that bean. -/
theorem C7_missing_rows_skipped_witness :
    (GetCacheSql (CacheState.mk [(("t", "SELECT `id` FROM t", []), [["1"], ["2"]])] [])
      "t" "SELECT `id` FROM t" [] = some [["1"], ["2"]]) ∧
    (∀ id ∈ [(["1"] : PK), ["2"]],
      hitOk (GoType.named "U")
        (GetBean (CacheState.mk [(("t", "SELECT `id` FROM t", []), [["1"], ["2"]])] []) "t")
        (pkToString id) = true) ∧
    (∃ st2, cacheFind (FindCtx.mk true true false false true "t"
          (some (Table.mk [Column.mk "id"] ["id"])) false none)
        (DB.mk (fun _ _ => []) (fun l => l.filterMap (fun pk =>
          if pk = ["1"] then some (Bean.mk (GoType.named "U") ["1"] "a") else none)) [])
        (GoType.named "U") "SELECT * FROM t" []
        (CacheState.mk [(("t", "SELECT `id` FROM t", []), [["1"], ["2"]])] []) =
      (Except.ok ([(["1"] : PK), ["2"]].filterMap (resolvedBean (GoType.named "U")
        (GetBean (CacheState.mk [(("t", "SELECT `id` FROM t", []), [["1"], ["2"]])] []) "t")
        ((DB.mk (fun _ _ => []) (fun l => l.filterMap (fun pk =>
          if pk = ["1"] then some (Bean.mk (GoType.named "U") ["1"] "a") else none))
          []).backfill
          (missedIds (GoType.named "U")
            (GetBean (CacheState.mk
              [(("t", "SELECT `id` FROM t", []), [["1"], ["2"]])] []) "t")
            [(["1"] : PK), ["2"]])))), st2, 0) ∧
    ([(["1"] : PK), ["2"]].filterMap (resolvedBean (GoType.named "U")
        (GetBean (CacheState.mk [(("t", "SELECT `id` FROM t", []), [["1"], ["2"]])] []) "t")
        ((DB.mk (fun _ _ => []) (fun l => l.filterMap (fun pk =>
          if pk = ["1"] then some (Bean.mk (GoType.named "U") ["1"] "a") else none))
          []).backfill
          (missedIds (GoType.named "U")
            (GetBean (CacheState.mk
              [(("t", "SELECT `id` FROM t", []), [["1"], ["2"]])] []) "t")
            [(["1"] : PK), ["2"]])))).length =
      [(["1"] : PK), ["2"]].countP (fun id => (resolvedBean (GoType.named "U")
        (GetBean (CacheState.mk [(("t", "SELECT `id` FROM t", []), [["1"], ["2"]])] []) "t")
        ((DB.mk (fun _ _ => []) (fun l => l.filterMap (fun pk =>
          if pk = ["1"] then some (Bean.mk (GoType.named "U") ["1"] "a") else none))
          []).backfill
          (missedIds (GoType.named "U")
            (GetBean (CacheState.mk
              [(("t", "SELECT `id` FROM t", []), [["1"], ["2"]])] []) "t")
            [(["1"] : PK), ["2"]])) id).isSome)) :=
  ⟨by decide, by decide,
    C7_missing_rows_skipped (FindCtx.mk true true false false true "t"
        (some (Table.mk [Column.mk "id"] ["id"])) false none)
      (DB.mk (fun _ _ => []) (fun l => l.filterMap (fun pk =>
        if pk = ["1"] then some (Bean.mk (GoType.named "U") ["1"] "a") else none)) [])
      (GoType.named "U") "SELECT * FROM t" []
      (CacheState.mk [(("t", "SELECT `id` FROM t", []), [["1"], ["2"]])] [])
      "SELECT `id` FROM t" [["1"], ["2"]]
      (by decide) (by decide) (by decide) (by decide) (by decide) (by decide)
      (by decide) (by decide) (by decide) (by decide) (by decide)⟩

/-- C2: a cache-assisted Find's slice output enumerates beans in exactly the
order of the originally resolved id list (each id contributes its hit or
backfilled bean at its own position, ids without a bean are skipped),
independent of the row order the backfill query returns; the direct path's
output equals the cursor's row-return order. -/
theorem C2_output_order (ctx : FindCtx) (db : DB) (t : GoType) (sqlStr : String)
    (args : List String) (st : CacheState) (newsql : String) (ids : List PK)
    (hcc : ctx.canCache = true)
    (hhav : IndexNoCase sqlStr "having" = none)
    (hgrp : IndexNoCase sqlStr "group by" = none)
    (hca : ctx.cacher = true)
    (hnewsql : ConvertIDSQL ctx.refTable ctx.isMSSQL ctx.limitN sqlStr = newsql)
    (hne : newsql ≠ "")
    (hhit : GetCacheSql st ctx.tableName newsql args = some ids)
    (hok : ∀ id ∈ ids, hitOk t (GetBean st ctx.tableName) (pkToString id) = true)
    (hnodup : (ids.map pkToString).Nodup)
    (hbfmem : ∀ b ∈ db.backfill (missedIds t (GetBean st ctx.tableName) ids),
      pkToString b.pk ∈ (missedIds t (GetBean st ctx.tableName) ids).map pkToString)
    (hbfnodup : ((db.backfill (missedIds t (GetBean st ctx.tableName) ids)).map
      (fun b => pkToString b.pk)).Nodup) :
    (cacheFind ctx db t sqlStr args st).1 =
      Except.ok (ids.filterMap (resolvedBean t (GetBean st ctx.tableName)
        (db.backfill (missedIds t (GetBean st ctx.tableName) ids)))) ∧
    (∀ db2 : DB,
      (db2.backfill (missedIds t (GetBean st ctx.tableName) ids)).Perm
        (db.backfill (missedIds t (GetBean st ctx.tableName) ids)) →
      (cacheFind ctx db2 t sqlStr args st).1 = (cacheFind ctx db t sqlStr args st).1) ∧
    (∀ table2 : Option Table, ∀ elem2 : GoType, ∀ rows2 : List Bean,
      elemIsPtrPtr elem2 = false →
      (noCacheFind table2 DestKind.slice elem2 rows2).1 = Except.ok rows2) := by
  have hfst : ∀ dbx : DB,
      (∀ b ∈ dbx.backfill (missedIds t (GetBean st ctx.tableName) ids),
        pkToString b.pk ∈ (missedIds t (GetBean st ctx.tableName) ids).map pkToString) →
      ((dbx.backfill (missedIds t (GetBean st ctx.tableName) ids)).map
        (fun b => pkToString b.pk)).Nodup →
      (cacheFind ctx dbx t sqlStr args st).1 =
        Except.ok (ids.filterMap (resolvedBean t (GetBean st ctx.tableName)
          (dbx.backfill (missedIds t (GetBean st ctx.tableName) ids)))) := by
    intro dbx hmemx hnodupx
    have hchar := processIds_char t ctx.tableName dbx ids st 0 hok hnodup hmemx hnodupx
    rw [cacheFind_eligible_shape ctx dbx t sqlStr args st newsql hcc hhav hgrp hca
      hnewsql hne, hhit]
    show (processIds t ctx.tableName dbx ids st 0).1 = _
    rw [hchar]
    rfl
  have h1 := hfst db hbfmem hbfnodup
  refine ⟨h1, ?_, ?_⟩
  · intro db2 hperm
    have hbfmem2 : ∀ b ∈ db2.backfill (missedIds t (GetBean st ctx.tableName) ids),
        pkToString b.pk ∈ (missedIds t (GetBean st ctx.tableName) ids).map pkToString :=
      fun b hb => hbfmem b (hperm.mem_iff.mp hb)
    have hbfnodup2 : ((db2.backfill (missedIds t (GetBean st ctx.tableName) ids)).map
        (fun b => pkToString b.pk)).Nodup :=
      ((hperm.map (fun b => pkToString b.pk)).nodup_iff).mpr hbfnodup
    rw [hfst db2 hbfmem2 hbfnodup2, h1]
    congr 1
    apply List.filterMap_congr
    intro id _
    rw [resolvedBean, resolvedBean]
    cases hh : hitBean t (GetBean st ctx.tableName) (pkToString id) with
    | some b => rfl
    | none =>
      apply find?_perm_of_unique _ _ _ hperm
      intro a ha b hb hpa hpb
      exact List.inj_on_of_nodup_map hbfnodup2 ha hb
        (by rw [beq_iff_eq.mp hpa, beq_iff_eq.mp hpb])
  · intro table2 elem2 rows2 hp
    rw [noCacheFind, if_neg (by simp [hp])]

/-- Witness for C2: one cache hit and one backfilled id. -/
theorem C2_output_order_witness :
    (GetCacheSql (CacheState.mk [(("t", "SELECT `id` FROM t", []), [["1"], ["2"]])]
        [(("t", "1"), Bean.mk (GoType.named "U") ["1"] "hit")])
      "t" "SELECT `id` FROM t" [] = some [["1"], ["2"]]) ∧
    ((([(["1"] : PK), ["2"]]).map pkToString).Nodup) ∧
    ((cacheFind (FindCtx.mk true true false false true "t"
          (some (Table.mk [Column.mk "id"] ["id"])) false none)
        (DB.mk (fun _ _ => []) (fun l => l.filterMap (fun pk =>
          if pk = ["2"] then some (Bean.mk (GoType.named "U") ["2"] "bf") else none)) [])
        (GoType.named "U") "SELECT * FROM t" []
        (CacheState.mk [(("t", "SELECT `id` FROM t", []), [["1"], ["2"]])]
          [(("t", "1"), Bean.mk (GoType.named "U") ["1"] "hit")])).1 =
      Except.ok ([(["1"] : PK), ["2"]].filterMap (resolvedBean (GoType.named "U")
        (GetBean (CacheState.mk [(("t", "SELECT `id` FROM t", []), [["1"], ["2"]])]
          [(("t", "1"), Bean.mk (GoType.named "U") ["1"] "hit")]) "t")
        ((DB.mk (fun _ _ => []) (fun l => l.filterMap (fun pk =>
          if pk = ["2"] then some (Bean.mk (GoType.named "U") ["2"] "bf") else none))
          []).backfill
          (missedIds (GoType.named "U")
            (GetBean (CacheState.mk [(("t", "SELECT `id` FROM t", []), [["1"], ["2"]])]
              [(("t", "1"), Bean.mk (GoType.named "U") ["1"] "hit")]) "t")
            [(["1"] : PK), ["2"]]))))) :=
  ⟨by decide, by decide,
    (C2_output_order (FindCtx.mk true true false false true "t"
        (some (Table.mk [Column.mk "id"] ["id"])) false none)
      (DB.mk (fun _ _ => []) (fun l => l.filterMap (fun pk =>
        if pk = ["2"] then some (Bean.mk (GoType.named "U") ["2"] "bf") else none)) [])
      (GoType.named "U") "SELECT * FROM t" []
      (CacheState.mk [(("t", "SELECT `id` FROM t", []), [["1"], ["2"]])]
        [(("t", "1"), Bean.mk (GoType.named "U") ["1"] "hit")])
      "SELECT `id` FROM t" [["1"], ["2"]]
      (by decide) (by decide) (by decide) (by decide) (by decide) (by decide)
      (by decide) (by decide) (by decide) (by decide) (by decide)).1⟩

theorem lookup_filter_ne {β : Type} (l : List ((String × String × List String) × β))
    (tableName newsql : String) (args : List String) :
    (l.filter (fun e => !(e.1.1 == tableName))).lookup (tableName, newsql, args) =
      none := by
  induction l with
  | nil => rfl
  | cons e rest ih =>
    by_cases he : e.1.1 = tableName
    · rw [List.filter_cons, if_neg (by simp [he])]
      exact ih
    · rw [List.filter_cons, if_pos (by simp [he])]
      have hk : (((tableName, newsql, args) : String × String × List String) == e.1) =
          false := by
        apply beq_eq_false_iff_ne.mpr
        intro hx
        exact he (by rw [← hx])
      rw [show (e : (String × String × List String) × β) = (e.1, e.2) from rfl,
        List.lookup_cons, hk]
      exact ih

theorem lookup_filter_other {β : Type} (l : List ((String × String × List String) × β))
    (tb2 tableName newsql : String) (args : List String) (hne : tb2 ≠ tableName) :
    (l.filter (fun e => !(e.1.1 == tableName))).lookup (tb2, newsql, args) =
      l.lookup (tb2, newsql, args) := by
  induction l with
  | nil => rfl
  | cons e rest ih =>
    by_cases he : e.1.1 = tableName
    · rw [List.filter_cons, if_neg (by simp [he])]
      have hk : (((tb2, newsql, args) : String × String × List String) == e.1) =
          false := by
        apply beq_eq_false_iff_ne.mpr
        intro hx
        apply hne
        have h2 : (tb2, newsql, args).1 = e.1.1 := by rw [hx]
        simpa using h2.trans he
      rw [show (e : (String × String × List String) × β) = (e.1, e.2) from rfl,
        List.lookup_cons, hk]
      exact ih
    · rw [List.filter_cons, if_pos (by simp [he])]
      rw [show (e : (String × String × List String) × β) = (e.1, e.2) from rfl,
        List.lookup_cons, List.lookup_cons]
      cases hk : (((tb2, newsql, args) : String × String × List String) == e.1) with
      | true => rfl
      | false => exact ih

/-- C9 (amended): every insert path with caching in use and a cacher
configured clears the target table's ENTIRE id-list cache namespace within
the same call — immediately after the exec on the struct-insert paths, but
immediately BEFORE the exec on the map-insert paths — and the invalidation
is confined to that table's id-list scope: other tables' id lists and all
cached beans are untouched. -/
theorem C9_insert_invalidation (useCache : Bool) (cacherFor : String → Bool)
    (tableName : String) (st : CacheState)
    (hu : useCache = true) (hc : cacherFor tableName = true) :
    (insertStructEffects useCache cacherFor tableName st =
      (ClearIds st tableName, [InsertEvent.exec, InsertEvent.clearIds tableName])) ∧
    (insertMultipleEffects useCache cacherFor tableName st =
      (ClearIds st tableName, [InsertEvent.exec, InsertEvent.clearIds tableName])) ∧
    clearAfterExec (insertStructEffects useCache cacherFor tableName st).2 = true ∧
    (insertMapEffects useCache cacherFor tableName st =
      (ClearIds st tableName, [InsertEvent.clearIds tableName, InsertEvent.exec])) ∧
    (∀ newsql : String, ∀ args : List String,
      GetCacheSql (ClearIds st tableName) tableName newsql args = none) ∧
    (∀ tb2 newsql : String, ∀ args : List String, tb2 ≠ tableName →
      GetCacheSql (ClearIds st tableName) tb2 newsql args =
        GetCacheSql st tb2 newsql args) ∧
    (∀ tb2 sid : String, GetBean (ClearIds st tableName) tb2 sid =
      GetBean st tb2 sid) := by
  refine ⟨?_, ?_, ?_, ?_, ?_, ?_, ?_⟩
  · simp [insertStructEffects, cacheInsert, hu, hc]
  · simp [insertMultipleEffects, cacheInsert, hu, hc]
  · simp [insertStructEffects, cacheInsert, hu, hc, clearAfterExec, List.takeWhile]
  · simp [insertMapEffects, cacheInsert, hu, hc]
  · intro newsql args
    exact lookup_filter_ne st.idLists tableName newsql args
  · intro tb2 newsql args hne
    exact lookup_filter_other st.idLists tb2 tableName newsql args hne
  · intro tb2 sid
    rfl

/-- Counterexample to C9 as stated: on the map-insert path the id-list clear
happens BEFORE the exec of the write, not immediately after it. -/
theorem C9_counterexample :
    (insertMapEffects true (fun _ => true) "t" (CacheState.mk [] [])).2 =
      [InsertEvent.clearIds "t", InsertEvent.exec] ∧
    clearAfterExec [InsertEvent.clearIds "t", InsertEvent.exec] = false := by
  refine ⟨by decide, by decide⟩

/-- Witness for C9 (amended) at a concrete table and cacher. -/
theorem C9_insert_invalidation_witness :
    (true = true) ∧ ((fun _ : String => true) "t" = true) ∧
    ((insertStructEffects true (fun _ : String => true) "t"
      (CacheState.mk [(("t", "q", []), [["1"]]), (("u", "q", []), [["2"]])] []) =
      (ClearIds (CacheState.mk [(("t", "q", []), [["1"]]), (("u", "q", []), [["2"]])] [])
        "t", [InsertEvent.exec, InsertEvent.clearIds "t"])) ∧
    (insertMultipleEffects true (fun _ : String => true) "t"
      (CacheState.mk [(("t", "q", []), [["1"]]), (("u", "q", []), [["2"]])] []) =
      (ClearIds (CacheState.mk [(("t", "q", []), [["1"]]), (("u", "q", []), [["2"]])] [])
        "t", [InsertEvent.exec, InsertEvent.clearIds "t"])) ∧
    clearAfterExec (insertStructEffects true (fun _ : String => true) "t"
      (CacheState.mk [(("t", "q", []), [["1"]]), (("u", "q", []), [["2"]])] [])).2 = true ∧
    (insertMapEffects true (fun _ : String => true) "t"
      (CacheState.mk [(("t", "q", []), [["1"]]), (("u", "q", []), [["2"]])] []) =
      (ClearIds (CacheState.mk [(("t", "q", []), [["1"]]), (("u", "q", []), [["2"]])] [])
        "t", [InsertEvent.clearIds "t", InsertEvent.exec])) ∧
    (∀ newsql : String, ∀ args : List String,
      GetCacheSql (ClearIds (CacheState.mk
        [(("t", "q", []), [["1"]]), (("u", "q", []), [["2"]])] []) "t")
        "t" newsql args = none) ∧
    (∀ tb2 newsql : String, ∀ args : List String, tb2 ≠ "t" →
      GetCacheSql (ClearIds (CacheState.mk
        [(("t", "q", []), [["1"]]), (("u", "q", []), [["2"]])] []) "t")
        tb2 newsql args =
      GetCacheSql (CacheState.mk
        [(("t", "q", []), [["1"]]), (("u", "q", []), [["2"]])] []) tb2 newsql args) ∧
    (∀ tb2 sid : String, GetBean (ClearIds (CacheState.mk
        [(("t", "q", []), [["1"]]), (("u", "q", []), [["2"]])] []) "t") tb2 sid =
      GetBean (CacheState.mk
        [(("t", "q", []), [["1"]]), (("u", "q", []), [["2"]])] []) tb2 sid)) :=
  ⟨rfl, rfl,
    C9_insert_invalidation true (fun _ : String => true) "t"
      (CacheState.mk [(("t", "q", []), [["1"]]), (("u", "q", []), [["2"]])] [])
      rfl rfl⟩

theorem GetBean_PutCacheSql (st : CacheState) (ids : List PK) (a b : String)
    (c : List String) (tb : String) :
    GetBean (PutCacheSql st ids a b c) tb = GetBean st tb := rfl

theorem GetCacheSql_eq_of_idLists (st1 st2 : CacheState) (h : st1.idLists = st2.idLists)
    (tb n : String) (a : List String) :
    GetCacheSql st1 tb n a = GetCacheSql st2 tb n a := by
  rw [GetCacheSql, GetCacheSql, h]

theorem find?_filterMap_beanOf_mem (beanOf : PK → Option Bean) (l : List PK)
    (id : PK) (b : Bean)
    (hnodup : (l.map pkToString).Nodup)
    (hpk : ∀ id2 ∈ l, ∀ b2, beanOf id2 = some b2 → pkToString b2.pk = pkToString id2)
    (hmem : id ∈ l) (hb : beanOf id = some b) :
    (l.filterMap beanOf).find? (fun b2 => pkToString b2.pk == pkToString id) =
      some b := by
  induction l with
  | nil => cases hmem
  | cons x rest ih =>
    have hxs : pkToString x ∉ rest.map pkToString := (List.nodup_cons.mp hnodup).1
    have hnd2 : (rest.map pkToString).Nodup := (List.nodup_cons.mp hnodup).2
    have hpk2 : ∀ id2 ∈ rest, ∀ b2, beanOf id2 = some b2 →
        pkToString b2.pk = pkToString id2 :=
      fun i hi b2 hb2 => hpk i (List.mem_cons_of_mem x hi) b2 hb2
    rcases List.mem_cons.mp hmem with hx | hx
    · subst hx
      rw [List.filterMap_cons, hb, List.find?_cons]
      have hp : (pkToString b.pk == pkToString id) = true :=
        beq_iff_eq.mpr (hpk id (List.mem_cons_self id rest) b hb)
      simp [hp]
    · have hne : pkToString x ≠ pkToString id := by
        intro hcon
        exact hxs (hcon ▸ List.mem_map_of_mem _ hx)
      cases hbx : beanOf x with
      | none =>
        rw [List.filterMap_cons, hbx]
        exact ih hnd2 hpk2 hx
      | some bx =>
        rw [List.filterMap_cons, hbx, List.find?_cons]
        have hsx : pkToString bx.pk = pkToString x :=
          hpk x (List.mem_cons_self x rest) bx hbx
        have hp : (pkToString bx.pk == pkToString id) = false := by
          apply beq_eq_false_iff_ne.mpr
          rw [hsx]
          exact hne
        simp only [hp]
        exact ih hnd2 hpk2 hx

theorem find?_filterMap_beanOf_none (beanOf : PK → Option Bean) (l : List PK)
    (sid : String)
    (hpk : ∀ id2 ∈ l, ∀ b2, beanOf id2 = some b2 → pkToString b2.pk = pkToString id2)
    (hno : ∀ id2 ∈ l, (beanOf id2).isSome = true → pkToString id2 ≠ sid) :
    (l.filterMap beanOf).find? (fun b2 => pkToString b2.pk == sid) = none := by
  rw [List.find?_eq_none]
  intro b hbmem hpb
  obtain ⟨id2, hid2, hb2⟩ := List.mem_filterMap.mp hbmem
  have hsid2 := hpk id2 hid2 b hb2
  apply hno id2 hid2 (by rw [hb2]; rfl)
  rw [← hsid2]
  exact beq_iff_eq.mp hpb

theorem filterMap_beanOf_sid_nodup (beanOf : PK → Option Bean) (l : List PK)
    (hnodup : (l.map pkToString).Nodup)
    (hpk : ∀ id2 ∈ l, ∀ b2, beanOf id2 = some b2 → pkToString b2.pk = pkToString id2) :
    ((l.filterMap beanOf).map (fun b => pkToString b.pk)).Nodup := by
  induction l with
  | nil => simp
  | cons x rest ih =>
    have hxs : pkToString x ∉ rest.map pkToString := (List.nodup_cons.mp hnodup).1
    have hnd2 : (rest.map pkToString).Nodup := (List.nodup_cons.mp hnodup).2
    have hpk2 : ∀ id2 ∈ rest, ∀ b2, beanOf id2 = some b2 →
        pkToString b2.pk = pkToString id2 :=
      fun i hi b2 hb2 => hpk i (List.mem_cons_of_mem x hi) b2 hb2
    cases hbx : beanOf x with
    | none =>
      rw [List.filterMap_cons, hbx]
      exact ih hnd2 hpk2
    | some bx =>
      rw [List.filterMap_cons, hbx, List.map_cons, List.nodup_cons]
      refine ⟨?_, ih hnd2 hpk2⟩
      intro hmem
      obtain ⟨b2, hb2mem, hb2eq⟩ := List.mem_map.mp hmem
      obtain ⟨id2, hid2, hbid2⟩ := List.mem_filterMap.mp hb2mem
      have hs2 : pkToString b2.pk = pkToString id2 := hpk2 id2 hid2 b2 hbid2
      have hsx : pkToString bx.pk = pkToString x :=
        hpk x (List.mem_cons_self x rest) bx hbx
      apply hxs
      rw [show pkToString x = pkToString id2 from by rw [← hsx, ← hb2eq, hs2]]
      exact List.mem_map_of_mem _ hid2

/-- C8: repeating the same cache-assisted Find with no intervening writes
returns the identical output, and the second execution performs no
id-resolution query: the id list is served from the cache entry keyed by
(table, rewritten SQL, arguments) that the first execution stored. -/
theorem C8_idempotent_second_fetch (ctx : FindCtx) (db : DB) (t : GoType)
    (sqlStr : String) (args : List String) (st : CacheState) (newsql : String)
    (ids : List PK) (beanOf : PK → Option Bean)
    (hcc : ctx.canCache = true)
    (hhav : IndexNoCase sqlStr "having" = none)
    (hgrp : IndexNoCase sqlStr "group by" = none)
    (hca : ctx.cacher = true)
    (hnewsql : ConvertIDSQL ctx.refTable ctx.isMSSQL ctx.limitN sqlStr = newsql)
    (hne : newsql ≠ "")
    (hids : db.idQuery newsql args = ids)
    (hmiss0 : GetCacheSql st ctx.tableName newsql args = none)
    (hlen : ids.length ≤ 500)
    (hnodup : (ids.map pkToString).Nodup)
    (hdb : ∀ l : List PK, db.backfill l = l.filterMap beanOf)
    (hbeanOf : ∀ id ∈ ids, ∀ b : Bean, beanOf id = some b →
      typeMatches b t = true ∧ pkToString b.pk = pkToString id)
    (hok : ∀ id ∈ ids, hitOk t (GetBean st ctx.tableName) (pkToString id) = true) :
    ∃ out : List Bean, ∃ st1 : CacheState,
      cacheFind ctx db t sqlStr args st = (Except.ok out, st1, 1) ∧
      cacheFind ctx db t sqlStr args st1 = (Except.ok out, st1, 0) ∧
      GetCacheSql st1 ctx.tableName newsql args = some ids := by
  have hsid_inj : ∀ a ∈ ids, ∀ b2 ∈ ids, pkToString a = pkToString b2 → a = b2 :=
    fun a ha b2 hb2 he => List.inj_on_of_nodup_map hnodup ha hb2 he
  have hmissed1sub : ∀ id ∈ missedIds t (GetBean st ctx.tableName) ids, id ∈ ids :=
    fun id hid => (List.mem_filter.mp hid).1
  have hmissed1nodup :
      ((missedIds t (GetBean st ctx.tableName) ids).map pkToString).Nodup :=
    List.Nodup.sublist ((List.filter_sublist ids).map pkToString) hnodup
  have hpkmissed : ∀ id2 ∈ missedIds t (GetBean st ctx.tableName) ids, ∀ b2,
      beanOf id2 = some b2 → pkToString b2.pk = pkToString id2 :=
    fun id2 hid2 b2 hb2 => (hbeanOf id2 (hmissed1sub id2 hid2) b2 hb2).2
  have hbf1 : db.backfill (missedIds t (GetBean st ctx.tableName) ids) =
      (missedIds t (GetBean st ctx.tableName) ids).filterMap beanOf := hdb _
  have hbfmem1 : ∀ b ∈ db.backfill (missedIds t (GetBean st ctx.tableName) ids),
      pkToString b.pk ∈ (missedIds t (GetBean st ctx.tableName) ids).map pkToString := by
    intro b hb
    rw [hbf1] at hb
    obtain ⟨id2, hid2, hb2⟩ := List.mem_filterMap.mp hb
    rw [hpkmissed id2 hid2 b hb2]
    exact List.mem_map_of_mem _ hid2
  have hbfnodup1 : ((db.backfill (missedIds t (GetBean st ctx.tableName) ids)).map
      (fun b => pkToString b.pk)).Nodup := by
    rw [hbf1]
    exact filterMap_beanOf_sid_nodup beanOf _ hmissed1nodup hpkmissed
  have hchar1 := processIds_char t ctx.tableName db ids
    (PutCacheSql st ids ctx.tableName newsql args) 1 hok hnodup hbfmem1 hbfnodup1
  have hrun1 : cacheFind ctx db t sqlStr args st =
      (Except.ok (cacheOut t (GetBean st ctx.tableName)
        (db.backfill (missedIds t (GetBean st ctx.tableName) ids)) ids),
       (applyBackfill ctx.tableName (missIdidxes t (GetBean st ctx.tableName) ids 0)
        (db.backfill (missedIds t (GetBean st ctx.tableName) ids))
        (ids.map (fun id => hitBean t (GetBean st ctx.tableName) (pkToString id)))
        (PutCacheSql st ids ctx.tableName newsql args)).2, 1) := by
    rw [cacheFind_eligible_shape ctx db t sqlStr args st newsql hcc hhav hgrp hca
      hnewsql hne, hmiss0, hids, collectIds_ok ids hlen]
    exact hchar1
  have hhit2 : GetCacheSql (applyBackfill ctx.tableName
      (missIdidxes t (GetBean st ctx.tableName) ids 0)
      (db.backfill (missedIds t (GetBean st ctx.tableName) ids))
      (ids.map (fun id => hitBean t (GetBean st ctx.tableName) (pkToString id)))
      (PutCacheSql st ids ctx.tableName newsql args)).2 ctx.tableName newsql args =
      some ids := by
    rw [GetCacheSql_eq_of_idLists _ (PutCacheSql st ids ctx.tableName newsql args)
      (applyBackfill_snd_idLists _ _ _ _ _) ctx.tableName newsql args,
      GetCacheSql_PutCacheSql_self]
  have hG2 : ∀ sid0 : String, GetBean (applyBackfill ctx.tableName
      (missIdidxes t (GetBean st ctx.tableName) ids 0)
      (db.backfill (missedIds t (GetBean st ctx.tableName) ids))
      (ids.map (fun id => hitBean t (GetBean st ctx.tableName) (pkToString id)))
      (PutCacheSql st ids ctx.tableName newsql args)).2 ctx.tableName sid0 =
      match (db.backfill (missedIds t (GetBean st ctx.tableName) ids)).reverse.find?
        (fun b => pkToString b.pk == sid0) with
      | some b => some b
      | none => GetBean st ctx.tableName sid0 :=
    fun sid0 => applyBackfill_snd_GetBean ctx.tableName _ _ _ _ sid0
  have hrev : ∀ sid0 : String,
      (db.backfill (missedIds t (GetBean st ctx.tableName) ids)).reverse.find?
        (fun b => pkToString b.pk == sid0) =
      (db.backfill (missedIds t (GetBean st ctx.tableName) ids)).find?
        (fun b => pkToString b.pk == sid0) := by
    intro sid0
    apply find?_perm_of_unique _ _ _ (List.reverse_perm _)
    intro a ha b2 hb2 hpa hpb
    exact List.inj_on_of_nodup_map hbfnodup1 (List.mem_reverse.mp ha)
      (List.mem_reverse.mp hb2)
      (by rw [beq_iff_eq.mp hpa, beq_iff_eq.mp hpb])
  obtain ⟨stF1, hstF1⟩ : ∃ stF1, (applyBackfill ctx.tableName
      (missIdidxes t (GetBean st ctx.tableName) ids 0)
      (db.backfill (missedIds t (GetBean st ctx.tableName) ids))
      (ids.map (fun id => hitBean t (GetBean st ctx.tableName) (pkToString id)))
      (PutCacheSql st ids ctx.tableName newsql args)).2 = stF1 := ⟨_, rfl⟩
  rw [hstF1] at hrun1 hhit2 hG2
  have hg2_eq : ∀ id ∈ ids, GetBean stF1 ctx.tableName (pkToString id) =
      match (db.backfill (missedIds t (GetBean st ctx.tableName) ids)).find?
        (fun b => pkToString b.pk == pkToString id) with
      | some b => some b
      | none => GetBean st ctx.tableName (pkToString id) := by
    intro id _
    rw [hG2, hrev]
  have hfind_hit : ∀ id ∈ ids,
      (hitBean t (GetBean st ctx.tableName) (pkToString id)).isSome = true →
      (db.backfill (missedIds t (GetBean st ctx.tableName) ids)).find?
        (fun b => pkToString b.pk == pkToString id) = none := by
    intro id hid hhit
    rw [hbf1]
    apply find?_filterMap_beanOf_none beanOf _ _ hpkmissed
    intro id2 hid2 hsome hcon
    have heq := hsid_inj id2 (hmissed1sub id2 hid2) id hid hcon
    rw [heq] at hid2
    have hnone := (List.mem_filter.mp hid2).2
    rw [Option.isNone_iff_eq_none] at hnone
    rw [hnone] at hhit
    cases hhit
  have hfind_miss_some : ∀ id, id ∈ missedIds t (GetBean st ctx.tableName) ids →
      ∀ b, beanOf id = some b →
      (db.backfill (missedIds t (GetBean st ctx.tableName) ids)).find?
        (fun b2 => pkToString b2.pk == pkToString id) = some b := by
    intro id hid b hb
    rw [hbf1]
    exact find?_filterMap_beanOf_mem beanOf _ id b hmissed1nodup hpkmissed hid hb
  have hfind_miss_none : ∀ id ∈ ids, beanOf id = none →
      (db.backfill (missedIds t (GetBean st ctx.tableName) ids)).find?
        (fun b2 => pkToString b2.pk == pkToString id) = none := by
    intro id hid hb
    rw [hbf1]
    apply find?_filterMap_beanOf_none beanOf _ _ hpkmissed
    intro id2 hid2 hsome hcon
    have heq := hsid_inj id2 (hmissed1sub id2 hid2) id hid hcon
    rw [heq, hb] at hsome
    cases hsome
  have hok2 : ∀ id ∈ ids, hitOk t (GetBean stF1 ctx.tableName) (pkToString id) = true := by
    intro id hid
    cases hfind : (db.backfill (missedIds t (GetBean st ctx.tableName) ids)).find?
        (fun b => pkToString b.pk == pkToString id) with
    | some b =>
      have hmemb := List.mem_of_find?_eq_some hfind
      rw [hbf1] at hmemb
      obtain ⟨id2, hid2, hb2⟩ := List.mem_filterMap.mp hmemb
      have htypes := hbeanOf id2 (hmissed1sub id2 hid2) b hb2
      have hfindp := List.find?_some hfind
      have hsidb : pkToString b.pk = pkToString id := beq_iff_eq.mp hfindp
      have hgb : GetBean stF1 ctx.tableName (pkToString id) = some b := by
        rw [hg2_eq id hid, hfind]
      have hhb : hitBean t (GetBean stF1 ctx.tableName) (pkToString id) = some b := by
        rw [hitBean, hgb]
        simp [htypes.1]
      rw [hitOk, hhb]
      exact beq_iff_eq.mpr hsidb
    | none =>
      have hgb : GetBean stF1 ctx.tableName (pkToString id) =
          GetBean st ctx.tableName (pkToString id) := by
        rw [hg2_eq id hid, hfind]
      have hhb : hitBean t (GetBean stF1 ctx.tableName) (pkToString id) =
          hitBean t (GetBean st ctx.tableName) (pkToString id) := by
        rw [hitBean, hitBean, hgb]
      rw [hitOk, hhb, ← hitOk]
      exact hok id hid
  have hbf2nil : db.backfill (missedIds t (GetBean stF1 ctx.tableName) ids) = [] := by
    rw [hdb, List.filterMap_eq_nil_iff]
    intro id hid
    have hid' : id ∈ ids := (List.mem_filter.mp hid).1
    have hmiss2 := (List.mem_filter.mp hid).2
    cases hb : beanOf id with
    | none => rfl
    | some b =>
      exfalso
      by_cases hh1 : (hitBean t (GetBean st ctx.tableName) (pkToString id)).isSome = true
      · have hfind := hfind_hit id hid' hh1
        have hgb : GetBean stF1 ctx.tableName (pkToString id) =
            GetBean st ctx.tableName (pkToString id) := by
          rw [hg2_eq id hid', hfind]
        have hhb : hitBean t (GetBean stF1 ctx.tableName) (pkToString id) =
            hitBean t (GetBean st ctx.tableName) (pkToString id) := by
          rw [hitBean, hitBean, hgb]
        rw [hhb] at hmiss2
        cases hx : hitBean t (GetBean st ctx.tableName) (pkToString id) with
        | some b2 => rw [hx] at hmiss2; cases hmiss2
        | none => rw [hx] at hh1; cases hh1
      · have hh1n : hitBean t (GetBean st ctx.tableName) (pkToString id) = none := by
          cases hx : hitBean t (GetBean st ctx.tableName) (pkToString id) with
          | some b2 => exact absurd (by rw [hx]; rfl) hh1
          | none => rfl
        have hidm : id ∈ missedIds t (GetBean st ctx.tableName) ids := by
          rw [missedIds, List.mem_filter]
          exact ⟨hid', by rw [hh1n]; rfl⟩
        have hfind := hfind_miss_some id hidm b hb
        have hgb : GetBean stF1 ctx.tableName (pkToString id) = some b := by
          rw [hg2_eq id hid', hfind]
        have htypes := hbeanOf id hid' b hb
        have hhb2 : hitBean t (GetBean stF1 ctx.tableName) (pkToString id) = some b := by
          rw [hitBean, hgb]
          simp [htypes.1]
        rw [hhb2] at hmiss2
        cases hmiss2
  have hbfmem2 : ∀ b ∈ db.backfill (missedIds t (GetBean stF1 ctx.tableName) ids),
      pkToString b.pk ∈ (missedIds t (GetBean stF1 ctx.tableName) ids).map pkToString := by
    rw [hbf2nil]
    intro b hb
    cases hb
  have hbfnodup2 : ((db.backfill (missedIds t (GetBean stF1 ctx.tableName) ids)).map
      (fun b => pkToString b.pk)).Nodup := by
    rw [hbf2nil]
    exact List.nodup_nil
  have hchar2 := processIds_char t ctx.tableName db ids stF1 0 hok2 hnodup hbfmem2 hbfnodup2
  have hrun2 : cacheFind ctx db t sqlStr args stF1 =
      (Except.ok (cacheOut t (GetBean stF1 ctx.tableName) [] ids), stF1, 0) := by
    rw [cacheFind_eligible_shape ctx db t sqlStr args stF1 newsql hcc hhav hgrp hca
      hnewsql hne, hhit2]
    show processIds t ctx.tableName db ids stF1 0 = _
    rw [hchar2, hbf2nil]
    rfl
  have hout : cacheOut t (GetBean stF1 ctx.tableName) [] ids =
      cacheOut t (GetBean st ctx.tableName)
        (db.backfill (missedIds t (GetBean st ctx.tableName) ids)) ids := by
    rw [cacheOut, cacheOut]
    apply List.filterMap_congr
    intro id hid
    rw [resolvedBean, resolvedBean]
    by_cases hh1 : (hitBean t (GetBean st ctx.tableName) (pkToString id)).isSome = true
    · obtain ⟨b0, hb0⟩ := Option.isSome_iff_exists.mp hh1
      have hfind := hfind_hit id hid hh1
      have hgb : GetBean stF1 ctx.tableName (pkToString id) =
          GetBean st ctx.tableName (pkToString id) := by
        rw [hg2_eq id hid, hfind]
      have hhb : hitBean t (GetBean stF1 ctx.tableName) (pkToString id) =
          hitBean t (GetBean st ctx.tableName) (pkToString id) := by
        rw [hitBean, hitBean, hgb]
      rw [hhb, hb0]
    · have hh1n : hitBean t (GetBean st ctx.tableName) (pkToString id) = none := by
        cases hx : hitBean t (GetBean st ctx.tableName) (pkToString id) with
        | some b2 => exact absurd (by rw [hx]; rfl) hh1
        | none => rfl
      have hidm : id ∈ missedIds t (GetBean st ctx.tableName) ids := by
        rw [missedIds, List.mem_filter]
        exact ⟨hid, by rw [hh1n]; rfl⟩
      cases hb : beanOf id with
      | some b =>
        have hfind := hfind_miss_some id hidm b hb
        have hgb : GetBean stF1 ctx.tableName (pkToString id) = some b := by
          rw [hg2_eq id hid, hfind]
        have htypes := hbeanOf id hid b hb
        have hhb2 : hitBean t (GetBean stF1 ctx.tableName) (pkToString id) = some b := by
          rw [hitBean, hgb]
          simp [htypes.1]
        rw [hhb2, hh1n, hfind]
      | none =>
        have hfind := hfind_miss_none id hid hb
        have hgb : GetBean stF1 ctx.tableName (pkToString id) =
            GetBean st ctx.tableName (pkToString id) := by
          rw [hg2_eq id hid, hfind]
        have hhb2 : hitBean t (GetBean stF1 ctx.tableName) (pkToString id) =
            hitBean t (GetBean st ctx.tableName) (pkToString id) := by
          rw [hitBean, hitBean, hgb]
        rw [hhb2, hh1n, hfind]
        rfl
  refine ⟨cacheOut t (GetBean st ctx.tableName)
      (db.backfill (missedIds t (GetBean st ctx.tableName) ids)) ids, stF1,
    hrun1, ?_, hhit2⟩
  rw [hrun2, hout]

/-- Witness for C8: two ids, empty initial cache, a backfill source that
returns a well-typed bean for each id; the second fetch is served entirely
from the cache with zero id-resolution queries. -/
theorem C8_idempotent_second_fetch_witness :
    ((DB.mk (fun _ _ => [["1"], ["2"]])
      (fun l => l.filterMap (fun pk =>
        if pk = ["1"] then some (Bean.mk (GoType.named "U") ["1"] "a")
        else if pk = ["2"] then some (Bean.mk (GoType.named "U") ["2"] "b")
        else none)) []).idQuery "SELECT `id` FROM t" [] = [(["1"] : PK), ["2"]]) ∧
    (GetCacheSql (CacheState.mk [] []) "t" "SELECT `id` FROM t" [] = none) ∧
    ((([(["1"] : PK), ["2"]]).map pkToString).Nodup) ∧
    (∀ id ∈ [(["1"] : PK), ["2"]], ∀ b : Bean,
      (if id = ["1"] then some (Bean.mk (GoType.named "U") ["1"] "a")
       else if id = ["2"] then some (Bean.mk (GoType.named "U") ["2"] "b")
       else none) = some b →
      typeMatches b (GoType.named "U") = true ∧ pkToString b.pk = pkToString id) ∧
    (∃ out : List Bean, ∃ st1 : CacheState,
      cacheFind (FindCtx.mk true true false false true "t"
          (some (Table.mk [Column.mk "id"] ["id"])) false none)
        (DB.mk (fun _ _ => [["1"], ["2"]])
          (fun l => l.filterMap (fun pk =>
            if pk = ["1"] then some (Bean.mk (GoType.named "U") ["1"] "a")
            else if pk = ["2"] then some (Bean.mk (GoType.named "U") ["2"] "b")
            else none)) [])
        (GoType.named "U") "SELECT * FROM t" [] (CacheState.mk [] []) =
        (Except.ok out, st1, 1) ∧
      cacheFind (FindCtx.mk true true false false true "t"
          (some (Table.mk [Column.mk "id"] ["id"])) false none)
        (DB.mk (fun _ _ => [["1"], ["2"]])
          (fun l => l.filterMap (fun pk =>
            if pk = ["1"] then some (Bean.mk (GoType.named "U") ["1"] "a")
            else if pk = ["2"] then some (Bean.mk (GoType.named "U") ["2"] "b")
            else none)) [])
        (GoType.named "U") "SELECT * FROM t" [] st1 = (Except.ok out, st1, 0) ∧
      GetCacheSql st1 "t" "SELECT `id` FROM t" [] = some [(["1"] : PK), ["2"]]) :=
  ⟨rfl, rfl, by decide,
    (by
      intro id hid b hb
      rcases List.mem_cons.mp hid with h | h
      · subst h
        simp at hb
        subst hb
        exact ⟨by decide, by decide⟩
      · rcases List.mem_cons.mp h with h2 | h2
        · subst h2
          simp at hb
          subst hb
          exact ⟨by decide, by decide⟩
        · cases h2),
    C8_idempotent_second_fetch (FindCtx.mk true true false false true "t"
        (some (Table.mk [Column.mk "id"] ["id"])) false none)
      (DB.mk (fun _ _ => [["1"], ["2"]])
        (fun l => l.filterMap (fun pk =>
          if pk = ["1"] then some (Bean.mk (GoType.named "U") ["1"] "a")
          else if pk = ["2"] then some (Bean.mk (GoType.named "U") ["2"] "b")
          else none)) [])
      (GoType.named "U") "SELECT * FROM t" [] (CacheState.mk [] [])
      "SELECT `id` FROM t" [["1"], ["2"]]
      (fun pk =>
        if pk = ["1"] then some (Bean.mk (GoType.named "U") ["1"] "a")
        else if pk = ["2"] then some (Bean.mk (GoType.named "U") ["2"] "b")
        else none)
      (by decide) (by decide) (by decide) (by decide) (by decide) (by decide)
      rfl (by decide) (by decide) (by decide) (fun l => rfl)
      (by
        intro id hid b hb
        rcases List.mem_cons.mp hid with h | h
        · subst h
          simp at hb
          subst hb
          exact ⟨by decide, by decide⟩
        · rcases List.mem_cons.mp h with h2 | h2
          · subst h2
            simp at hb
            subst hb
            exact ⟨by decide, by decide⟩
          · cases h2)
      (by decide)⟩

end Xorm
